import Mathlib

set_option maxRecDepth 100000

/-!
Verification development for the M3U/XC-API/EPG IPTV Stremio addon.

This file gives a shallow embedding, in Lean 4, of the ingestion,
identity-resolution, channel-merge, EPG-query and cache layers of the
addon (`addon.js` and `src/js/providers/xtreamProvider.js`), and proves
or refutes the specification claims about them.

Conventions of the embedding:
* JavaScript numbers that are used as machine integers (timestamps in
  milliseconds, 32-bit words inside md5) are modelled as `Nat`/`Int`
  with explicit `% 2^32` (resp. `% 2^64`) where overflow matters.
* JavaScript side effects are made explicit: the process wall clock
  (`new Date()` / `Date.now()`), the host timezone used by the
  `new Date(y, m, d, ...)` constructor, and the results of network
  fetches are passed in as explicit environment values.
* JS `Map` objects (which preserve insertion order) are modelled as
  association lists where an update keeps the entry position and an
  insert appends at the end.
* JS `Array.prototype.sort`, which is guaranteed stable, is modelled by
  `List.insertionSort` (a stable sort) with the comparator's induced
  total preorder.
-/

/-! ## Generic JS-style string helpers -/

/-- The characters treated as whitespace by JavaScript `\s`, `trim` and
`\s{2,}`-style regexes, restricted to the ASCII range that the feeds use. -/
def jsIsWs (c : Char) : Bool :=
  c = ' ' || c = '\t' || c = '\n' || c = '\r' || c = '\x0b' || c = '\x0c'

/-- Word character for the JS regex `\w` and for `\b` boundaries. -/
def jsIsWord (c : Char) : Bool :=
  (c ≥ 'a' && c ≤ 'z') || (c ≥ 'A' && c ≤ 'Z') || (c ≥ '0' && c ≤ '9') || c = '_'

def jsIsDigit (c : Char) : Bool := c ≥ '0' && c ≤ '9'

/-- ASCII lower-casing, the fragment of JS `toLowerCase` exercised here. -/
def asciiLower (c : Char) : Char :=
  if c ≥ 'A' && c ≤ 'Z' then Char.ofNat (c.toNat + 32) else c

/-- ASCII upper-casing, the fragment of JS `toUpperCase` exercised here. -/
def asciiUpper (c : Char) : Char :=
  if c ≥ 'a' && c ≤ 'z' then Char.ofNat (c.toNat - 32) else c

def lowerStr (s : String) : String := String.mk (s.data.map asciiLower)

def upperStr (s : String) : String := String.mk (s.data.map asciiUpper)

/-- JS `String.prototype.trim` (ASCII whitespace fragment). -/
def jsTrim (s : String) : String :=
  String.mk (((s.data.dropWhile jsIsWs).reverse.dropWhile jsIsWs).reverse)

/-- JS `string.includes(needle)`. -/
def containsSub (hay needle : List Char) : Bool :=
  match hay with
  | [] => needle.isEmpty
  | _ :: t => needle.isPrefixOf hay || containsSub t needle

def strContains (hay needle : String) : Bool := containsSub hay.data needle.data

/-- JS string truthiness-based `a || b` for optional string values:
`undefined` and the empty string are falsy. -/
def jsOrStr (a b : Option String) : Option String :=
  match a with
  | some s => if s ≠ "" then some s else b
  | none => b

/-! ## md5 (as used through node's `crypto.createHash('md5')`) -/

def utf8EncodeChar (c : Char) : List Nat :=
  let n := c.toNat
  if n < 0x80 then [n]
  else if n < 0x800 then [0xC0 ||| (n >>> 6), 0x80 ||| (n &&& 0x3F)]
  else if n < 0x10000 then
    [0xE0 ||| (n >>> 12), 0x80 ||| ((n >>> 6) &&& 0x3F), 0x80 ||| (n &&& 0x3F)]
  else
    [0xF0 ||| (n >>> 18), 0x80 ||| ((n >>> 12) &&& 0x3F),
     0x80 ||| ((n >>> 6) &&& 0x3F), 0x80 ||| (n &&& 0x3F)]

/-- UTF-8 bytes of a string (node hashes the UTF-8 encoding). -/
def utf8Bytes (s : String) : List Nat := (s.data.map utf8EncodeChar).flatten

def w32 (n : Nat) : Nat := n % 4294967296

def wadd (a b : Nat) : Nat := (a + b) % 4294967296

/-- Bitwise NOT on a 32-bit word. -/
def wnot (a : Nat) : Nat := 4294967295 - w32 a

def rotl (x n : Nat) : Nat := w32 ((w32 x <<< n) ||| (w32 x >>> (32 - n)))

def md5K : List Nat :=
  [0xd76aa478, 0xe8c7b756, 0x242070db, 0xc1bdceee,
   0xf57c0faf, 0x4787c62a, 0xa8304613, 0xfd469501,
   0x698098d8, 0x8b44f7af, 0xffff5bb1, 0x895cd7be,
   0x6b901122, 0xfd987193, 0xa679438e, 0x49b40821,
   0xf61e2562, 0xc040b340, 0x265e5a51, 0xe9b6c7aa,
   0xd62f105d, 0x02441453, 0xd8a1e681, 0xe7d3fbc8,
   0x21e1cde6, 0xc33707d6, 0xf4d50d87, 0x455a14ed,
   0xa9e3e905, 0xfcefa3f8, 0x676f02d9, 0x8d2a4c8a,
   0xfffa3942, 0x8771f681, 0x6d9d6122, 0xfde5380c,
   0xa4beea44, 0x4bdecfa9, 0xf6bb4b60, 0xbebfbc70,
   0x289b7ec6, 0xeaa127fa, 0xd4ef3085, 0x04881d05,
   0xd9d4d039, 0xe6db99e5, 0x1fa27cf8, 0xc4ac5665,
   0xf4292244, 0x432aff97, 0xab9423a7, 0xfc93a039,
   0x655b59c3, 0x8f0ccc92, 0xffeff47d, 0x85845dd1,
   0x6fa87e4f, 0xfe2ce6e0, 0xa3014314, 0x4e0811a1,
   0xf7537e82, 0xbd3af235, 0x2ad7d2bb, 0xeb86d391]

def md5S : List Nat :=
  [7, 12, 17, 22, 7, 12, 17, 22, 7, 12, 17, 22, 7, 12, 17, 22,
   5, 9, 14, 20, 5, 9, 14, 20, 5, 9, 14, 20, 5, 9, 14, 20,
   4, 11, 16, 23, 4, 11, 16, 23, 4, 11, 16, 23, 4, 11, 16, 23,
   6, 10, 15, 21, 6, 10, 15, 21, 6, 10, 15, 21, 6, 10, 15, 21]

/-- One md5 round's nonlinear function and message index. -/
def md5FG (i b c d : Nat) : Nat × Nat :=
  if i < 16 then ((b &&& c) ||| (wnot b &&& d), i)
  else if i < 32 then ((d &&& b) ||| (wnot d &&& c), (5 * i + 1) % 16)
  else if i < 48 then (b ^^^ c ^^^ d, (3 * i + 5) % 16)
  else (c ^^^ (b ||| wnot d), (7 * i) % 16)

/-- Little-endian 32-bit words of one 64-byte chunk. -/
def md5Words (chunk : List Nat) (j : Nat) : Nat :=
  chunk.getD (4 * j) 0 + (chunk.getD (4 * j + 1) 0 <<< 8) +
    (chunk.getD (4 * j + 2) 0 <<< 16) + (chunk.getD (4 * j + 3) 0 <<< 24)

def md5Round (chunk : List Nat) (st : Nat × Nat × Nat × Nat) (i : Nat) :
    Nat × Nat × Nat × Nat :=
  match st with
  | (a, b, c, d) =>
    let fg := md5FG i b c d
    let tmp := wadd (wadd a fg.1) (wadd (md5K.getD i 0) (md5Words chunk fg.2))
    (d, wadd b (rotl tmp (md5S.getD i 0)), b, c)

def md5Step (h : Nat × Nat × Nat × Nat) (chunk : List Nat) : Nat × Nat × Nat × Nat :=
  match h, (List.range 64).foldl (md5Round chunk) h with
  | (a0, b0, c0, d0), (a, b, c, d) => (wadd a0 a, wadd b0 b, wadd c0 c, wadd d0 d)

def md5Loop : Nat → (Nat × Nat × Nat × Nat) → List Nat → Nat × Nat × Nat × Nat
  | 0, h, _ => h
  | _ + 1, h, [] => h
  | fuel + 1, h, bytes => md5Loop fuel (md5Step h (bytes.take 64)) (bytes.drop 64)

/-- md5 padding: a 0x80 byte, zeros to 56 mod 64, and the bit length as a
little-endian 64-bit quantity. -/
def md5Pad (msg : List Nat) : List Nat :=
  let len := msg.length
  let zeros := (120 - ((len + 1) % 64)) % 64
  let bits := (len * 8) % 18446744073709551616
  msg ++ [0x80] ++ List.replicate zeros 0 ++
    ((List.range 8).map fun i => (bits >>> (8 * i)) % 256)

def wordLEBytes (w : Nat) : List Nat :=
  [w % 256, (w >>> 8) % 256, (w >>> 16) % 256, (w >>> 24) % 256]

/-- md5 digest (16 bytes) of a byte sequence. -/
def md5Bytes (msg : List Nat) : List Nat :=
  let padded := md5Pad msg
  match md5Loop (padded.length) (0x67452301, 0xefcdab89, 0x98badcfe, 0x10325476) padded with
  | (a, b, c, d) => wordLEBytes a ++ wordLEBytes b ++ wordLEBytes c ++ wordLEBytes d

/-- Lower-case hex digit: 0-9 then a-f (codepoints 48+n and 87+n). -/
def hexChar (n : Nat) : Char :=
  if n < 10 then Char.ofNat (48 + n) else Char.ofNat (87 + n)

def bytesToHex (bs : List Nat) : List Char :=
  (bs.map fun b => [hexChar (b / 16 % 16), hexChar (b % 16)]).flatten

/-- `crypto.createHash('md5').update(s).digest('hex')`. -/
def md5hex (s : String) : String := String.mk (bytesToHex (md5Bytes (utf8Bytes s)))

/-- JS `str.slice(0, n)`. -/
def strTake (s : String) (n : Nat) : String := String.mk (s.data.take n)

/-- Known-answer test anchoring the md5 embedding (RFC 1321 test suite). -/
theorem md5hex_empty : md5hex "" = "d41d8cd98f00b204e9800998ecf8427e" := by decide

/-- Known-answer test anchoring the md5 embedding (RFC 1321 test suite). -/
theorem md5hex_abc : md5hex "abc" = "900150983cd24fb0d6963f7d28e17f72" := by decide

/-! ## Association lists (JS `Map` / plain-object model, insertion-ordered) -/

def alistGet {β : Type} (m : List (String × β)) (k : String) : Option β :=
  match m with
  | [] => none
  | (k', v) :: rest => if k' = k then some v else alistGet rest k

def alistSet {β : Type} (m : List (String × β)) (k : String) (v : β) : List (String × β) :=
  match m with
  | [] => [(k, v)]
  | (k', v') :: rest => if k' = k then (k, v) :: rest else (k', v') :: alistSet rest k v

/-! ## Regex fragments used by `addon.js` / `xtreamProvider.js`

Each scanner below implements exactly one concrete JS regex from the
source, by left-to-right scanning with the (finite) backtracking the
original pattern can perform.
-/

/-- Case-insensitive literal token match at the head of `cs`
(`tok` is given in canonical upper case). -/
def matchTokCI (cs tok : List Char) : Bool :=
  (cs.take tok.length).map asciiUpper = tok

/-- A `\b` boundary just before the current position, given the previous
character (all tokens matched here start with a word character). -/
def boundaryBefore (prev : Option Char) : Bool :=
  match prev with
  | none => true
  | some c => !jsIsWord c

/-- A `\b` boundary right after `len` characters of `cs` (all tokens matched
here end with a word character). -/
def boundaryAfterAt (cs : List Char) (len : Nat) : Bool :=
  match cs.drop len with
  | [] => true
  | c :: _ => !jsIsWord c

/-- Alternatives of `/\b(4K|UHD|FHD|HD|SD)\b/i` in the regex's order. -/
def m3uQualityToks : List (List Char) :=
  [['4', 'K'], ['U', 'H', 'D'], ['F', 'H', 'D'], ['H', 'D'], ['S', 'D']]

def m3uQualityTokAt (prev : Option Char) (cs : List Char) : Option (List Char) :=
  if boundaryBefore prev then
    m3uQualityToks.find? fun tok => matchTokCI cs tok && boundaryAfterAt cs tok.length
  else none

def m3uQualityFind : Option Char → List Char → Option (List Char)
  | _, [] => none
  | prev, c :: rest =>
    match m3uQualityTokAt prev (c :: rest) with
    | some tok => some tok
    | none => m3uQualityFind (some c) rest

/-- Quality detection of the playlist path
(`addon.js` `parseM3U`: first `/\b(4K|UHD|FHD|HD|SD)\b/i` match upper-cased,
`UHD` folded to `4K`, default `SD`). -/
def m3uQuality (name : String) : String :=
  match m3uQualityFind none name.data with
  | some tok => if String.mk tok = "UHD" then "4K" else String.mk tok
  | none => "SD"

/-- Global removal for `/\b(4K|UHD|FHD|HD|SD)\b/gi` (scan resumes after each
match; boundary checks look at the original neighbours). -/
def m3uQualityStrip : Nat → Option Char → List Char → List Char
  | 0, _, cs => cs
  | _ + 1, _, [] => []
  | fuel + 1, prev, c :: rest =>
    match m3uQualityTokAt prev (c :: rest) with
    | some tok =>
      m3uQualityStrip fuel (some ((c :: rest).getD (tok.length - 1) c)) ((c :: rest).drop tok.length)
    | none => c :: m3uQualityStrip fuel (some c) rest

/-- `/\s{2,}/g → ' '`: collapse each run of two or more whitespace characters
into a single space (runs of one are kept as they are). -/
def collapseWs : Nat → List Char → List Char
  | 0, cs => cs
  | _ + 1, [] => []
  | fuel + 1, c :: rest =>
    if jsIsWs c then
      match rest with
      | c2 :: _ =>
        if jsIsWs c2 then ' ' :: collapseWs fuel (rest.dropWhile jsIsWs)
        else c :: collapseWs fuel rest
      | [] => [c]
    else c :: collapseWs fuel rest

/-- Cleaned display name of the playlist path (`baseName` in `parseM3U`):
tier tokens removed, `\s{2,}` collapsed, trimmed. -/
def m3uBaseName (name : String) : String :=
  let stripped := m3uQualityStrip name.data.length none name.data
  jsTrim (String.mk (collapseWs stripped.length stripped))

/-- `/\(\d{4}\)/.test(name)` (`isMovieFormat`). -/
def containsParenYear : List Char → Bool
  | '(' :: d1 :: d2 :: d3 :: d4 :: c :: rest =>
    (jsIsDigit d1 && jsIsDigit d2 && jsIsDigit d3 && jsIsDigit d4 && c = ')') ||
      containsParenYear (d1 :: d2 :: d3 :: d4 :: c :: rest)
  | _ :: t => containsParenYear t
  | [] => false

def sxxeDigitsEnd (cs : List Char) : Bool :=
  match cs with
  | d1 :: rest =>
    jsIsDigit d1 &&
      (match rest with
       | d2 :: rest2 => (jsIsDigit d2 && boundaryAfterAt rest2 0) || boundaryAfterAt rest 0
       | [] => true)
  | [] => false

def sxxeAfterE (cs : List Char) : Bool :=
  match cs with
  | e :: rest => (e = 'E' || e = 'e') && sxxeDigitsEnd rest
  | [] => false

def sxxeTail (cs : List Char) : Bool :=
  match cs with
  | d1 :: rest =>
    jsIsDigit d1 &&
      (match rest with
       | d2 :: rest2 => (jsIsDigit d2 && sxxeAfterE rest2) || sxxeAfterE rest
       | [] => false)
  | [] => false

/-- `/\bS\d{1,2}E\d{1,2}\b/i.test(name)`. -/
def containsSxxEyy : Option Char → List Char → Bool
  | _, [] => false
  | prev, c :: rest =>
    (boundaryBefore prev && (c = 'S' || c = 's') && sxxeTail rest) ||
      containsSxxEyy (some c) rest

def seasonTail (cs : List Char) : Bool :=
  match cs with
  | c :: rest =>
    if jsIsWs c then (match rest with | d :: _ => jsIsDigit d | [] => false)
    else jsIsDigit c
  | [] => false

/-- `/\bSeason\s?\d+/i.test(name)`. -/
def containsSeasonNum : Option Char → List Char → Bool
  | _, [] => false
  | prev, c :: rest =>
    (boundaryBefore prev && matchTokCI (c :: rest) ['S', 'E', 'A', 'S', 'O', 'N'] &&
      seasonTail ((c :: rest).drop 6)) ||
      containsSeasonNum (some c) rest

/-! ### `parseAttributes`: the global regex `/(\w+(?:-\w+)*)="([^"]*)"/g` -/

def attrKeyExt : Nat → List Char → List Char → List Char × List Char
  | 0, acc, cs => (acc, cs)
  | fuel + 1, acc, cs =>
    match cs with
    | '-' :: r2 =>
      let run2 := r2.takeWhile jsIsWord
      if run2 = [] then (acc, cs)
      else attrKeyExt fuel (acc ++ '-' :: run2) (r2.dropWhile jsIsWord)
    | _ => (acc, cs)

/-- Try the attribute regex at the current position: key (`\w+(?:-\w+)*`),
then `="`, then the quoted value. Returns key, value and the rest of the
input after the closing quote. -/
def attrTryAt (cs : List Char) : Option (List Char × List Char × List Char) :=
  let run := cs.takeWhile jsIsWord
  if run = [] then none
  else
    match attrKeyExt cs.length run (cs.dropWhile jsIsWord) with
    | (key, rest) =>
      match rest with
      | '=' :: '"' :: r2 =>
        let v := r2.takeWhile (fun c => c ≠ '"')
        (match r2.dropWhile (fun c => c ≠ '"') with
         | '"' :: r3 => some (key, v, r3)
         | _ => none)
      | _ => none

def parseAttributesGo : Nat → List Char → List (String × String) → List (String × String)
  | 0, _, acc => acc
  | _ + 1, [], acc => acc
  | fuel + 1, c :: rest, acc =>
    match attrTryAt (c :: rest) with
    | some (key, v, r3) => parseAttributesGo fuel r3 (alistSet acc (String.mk key) (String.mk v))
    | none => parseAttributesGo fuel rest acc

/-- `parseAttributes` of `addon.js`: scan the attribute text for
`key="value"` matches, later duplicates overwriting earlier ones. -/
def parseAttributes (s : String) : List (String × String) :=
  parseAttributesGo s.data.length s.data []

/-! ### The `#EXTINF` line regex `/#EXTINF:(-?\d+)(?:\s+(.*))?,(.*)/` -/

/-- Split a character list at its last comma (greedy `(.*),`). -/
def lastCommaSplit : List Char → Option (List Char × List Char)
  | [] => none
  | c :: rest =>
    match lastCommaSplit rest with
    | some (bef, aft) => some (c :: bef, aft)
    | none => if c = ',' then some ([], rest) else none

def digitsToNat (ds : List Char) : Nat :=
  ds.foldl (fun n c => n * 10 + (c.toNat - '0'.toNat)) 0

/-- Attempt the `#EXTINF` regex with the literal `#EXTINF:` anchored at the
head of `cs`; yields duration, attribute text (group 2, `''` when absent)
and title text (group 3). -/
def extinfTryAt (cs : List Char) : Option (Int × List Char × List Char) :=
  if (['#', 'E', 'X', 'T', 'I', 'N', 'F', ':']).isPrefixOf cs then
    let rest := cs.drop 8
    let neg := rest.head? = some '-'
    let rest1 := if neg then rest.drop 1 else rest
    let digits := rest1.takeWhile jsIsDigit
    let rest2 := rest1.dropWhile jsIsDigit
    if digits = [] then none
    else
      let dur : Int := if neg then -(digitsToNat digits : Int) else (digitsToNat digits : Int)
      match rest2 with
      | c :: _ =>
        if jsIsWs c then
          match lastCommaSplit rest2 with
          | some (bef, aft) => some (dur, bef.dropWhile jsIsWs, aft)
          | none => none
        else if c = ',' then some (dur, [], rest2.drop 1)
        else none
      | [] => none
  else none

/-- Search for the `#EXTINF` regex anywhere in the line (JS `match` is a
search; the pattern itself anchors on the literal `#EXTINF:`). -/
def extinfSearch : List Char → Option (Int × List Char × List Char)
  | [] => none
  | c :: rest =>
    match extinfTryAt (c :: rest) with
    | some r => some r
    | none => extinfSearch rest

/-! ## Catalog entities

JS objects are duck-typed; one `Item` structure carries the union of the
fields that playlist records, merged TV channels, movies and series
objects have in the source, with `Option` for fields a given shape omits.
-/

structure QStream where
  quality : String
  url : String
  title : Option String
  stream_id : Option Nat
deriving DecidableEq

structure Item where
  id : String
  name : String
  itemType : String
  url : Option String
  logo : Option String
  poster : Option String
  plot : Option String
  category : Option String
  year : Option Int
  epg_channel_id : Option String
  series_id : Option String
  duration : Option Int
  attributes : List (String × String)
  streams : List QStream
deriving DecidableEq

def emptyItem : Item :=
  ⟨"", "", "", none, none, none, none, none, none, none, none, none, [], []⟩

structure ExtInf where
  duration : Int
  attributes : List (String × String)
  name : String
deriving DecidableEq

/-- `normalize` of `parseM3U`: `v.trim().toLowerCase()`. -/
def normalizeJs (s : String) : String := lowerStr (jsTrim s)

/-- The quality rank used by the playlist path's comparator
`(order[b.quality] || 0) - (order[a.quality] || 0)` with
`order = (4K: 4, FHD: 3, HD: 2, SD: 1)`. -/
def pOrder (q : String) : Nat :=
  if q = "4K" then 4 else if q = "FHD" then 3 else if q = "HD" then 2
  else if q = "SD" then 1 else 0

/-- `a` may come before `b` under the playlist comparator (descending
`pOrder`, i.e. best tier first). -/
def pStreamLe (a b : QStream) : Prop := pOrder b.quality ≤ pOrder a.quality

instance : DecidableRel pStreamLe := fun a b => Nat.decLe _ _

instance : IsTotal QStream pStreamLe :=
  ⟨fun a b => (Nat.le_total (pOrder b.quality) (pOrder a.quality)).imp id id⟩

instance : IsTrans QStream pStreamLe :=
  ⟨fun _ _ _ h1 h2 => Nat.le_trans h2 h1⟩

/-- A resolved playlist TV record as it enters the merge step of
`parseM3U` (the branch guarded by `type === 'tv' && normalizedTvgId`). -/
structure TvRec where
  key : String
  name : String
  url : String
  logo : Option String
  category : String
  attributes : List (String × String)
deriving DecidableEq

def mkItemId (name url : String) : String :=
  "iptv_" ++ strTake (md5hex (name ++ url)) 16

def mkTvStream (r : TvRec) : QStream :=
  { quality := m3uQuality r.name, url := r.url,
    title := some (m3uBaseName r.name ++ " [" ++ m3uQuality r.name ++ "]"),
    stream_id := none }

def mkTvChannel (r : TvRec) : Item :=
  { emptyItem with
    id := "iptv_" ++ strTake (md5hex r.key) 16,
    name := m3uBaseName r.name,
    itemType := "tv",
    logo := r.logo,
    category := some r.category,
    epg_channel_id := some r.key,
    attributes := alistSet (alistSet r.attributes "tvg-id" r.key) "group-title" r.category,
    streams := [] }

/-- One TV-channel merge step of `parseM3U`: get or create the channel for
the record's key, push the record's stream, re-sort the streams (stable,
best tier first) and reset the default url to the first stream's. -/
def mergeTvStep (m : List (String × Item)) (r : TvRec) : List (String × Item) :=
  let ch0 := (alistGet m r.key).getD (mkTvChannel r)
  let sts := (ch0.streams ++ [mkTvStream r]).insertionSort pStreamLe
  alistSet m r.key { ch0 with streams := sts, url := sts.head?.map (fun s => s.url) }

structure ParseState where
  items : List Item
  groups : List (String × Item)
  cur : Option ExtInf
deriving DecidableEq

/-- `attributes['tvg-id'] || attributes['tvg-name'] || ''`. -/
def recordTvgIdRaw (e : ExtInf) : String :=
  (jsOrStr (alistGet e.attributes "tvg-id") (alistGet e.attributes "tvg-name")).getD ""

/-- `isMovieFormat` of `addon.js`: `/\(\d{4}\)/.test(name)`. -/
def isMovieFormat (name : String) : Bool := containsParenYear name.data

/-- The `type` classification of a playlist record in `parseM3U`. -/
def recordType (e : ExtInf) : String :=
  let groupNorm := normalizeJs ((alistGet e.attributes "group-title").getD "")
  let isMovie := strContains groupNorm "movie" || isMovieFormat e.name
  let isSeries := !isMovie &&
    (strContains groupNorm "series" || containsSxxEyy none e.name.data ||
      containsSeasonNum none e.name.data)
  if isSeries then "series" else if isMovie then "movie" else "tv"

/-- Processing of a (metadata line, url line) pair in `parseM3U`: TV records
with a nonempty normalized id go to the channel merge; everything else is
appended to `items` with an id hashed from name + url. -/
def processEntry (st : ParseState) (e : ExtInf) (url : String) : ParseState :=
  let logo := alistGet e.attributes "tvg-logo"
  let ntvg := normalizeJs (recordTvgIdRaw e)
  let groupRaw := (alistGet e.attributes "group-title").getD ""
  let ty := recordType e
  if ty = "tv" ∧ ntvg ≠ "" then
    { st with groups := mergeTvStep st.groups ⟨ntvg, e.name, url, logo, groupRaw, e.attributes⟩,
              cur := none }
  else
    let it := { emptyItem with
      id := mkItemId e.name url,
      name := e.name,
      itemType := ty,
      url := some url,
      logo := logo,
      category := some groupRaw,
      epg_channel_id := some ntvg,
      duration := some e.duration,
      attributes := e.attributes,
      streams := [] }
    { st with items := st.items ++ [it], cur := none }

/-- JS `s.startsWith(pre)` (kernel-reducible form). -/
def jsStartsWith (s pre : String) : Bool := pre.data.isPrefixOf s.data

def splitNlChars : List Char → List Char → List String
  | [], cur => [String.mk cur.reverse]
  | '\n' :: rest, cur => String.mk cur.reverse :: splitNlChars rest []
  | c :: rest, cur => splitNlChars rest (c :: cur)

/-- JS `content.split('\n')`. -/
def jsSplitLines (s : String) : List String := splitNlChars s.data []

def parseM3ULine (st : ParseState) (raw : String) : ParseState :=
  let line := jsTrim raw
  if jsStartsWith line "#EXTINF:" then
    match extinfSearch line.data with
    | some (dur, attrsStr, nm) =>
      { st with cur := some ⟨dur, parseAttributes (String.mk attrsStr), jsTrim (String.mk nm)⟩ }
    | none => st
  else if line = "" ∨ jsStartsWith line "#" then st
  else
    match st.cur with
    | none => st
    | some e => processEntry st e line

/-- `parseM3U` of `addon.js`: fold the lines, then append the merged
channels (in insertion order) after the movie/series items. -/
def parseM3U (content : String) : List Item :=
  let fin := (jsSplitLines content).foldl parseM3ULine ⟨[], [], none⟩
  fin.items ++ fin.groups.map (fun p => p.2)

/-! ## `xtreamProvider.js` helpers: `cleanName`, `detectQuality`, `cryptoHash` -/

/-- Length of a match of one alternative of
`/\b(4K|UHD|FHD|FULL\s*HD|1080P|HD|720P|SD)\b/ig` at the current position
(alternatives tried in the regex's order). -/
def xCleanTokLenAt (prev : Option Char) (cs : List Char) : Option Nat :=
  if !boundaryBefore prev then none
  else if matchTokCI cs ['4', 'K'] && boundaryAfterAt cs 2 then some 2
  else if matchTokCI cs ['U', 'H', 'D'] && boundaryAfterAt cs 3 then some 3
  else if matchTokCI cs ['F', 'H', 'D'] && boundaryAfterAt cs 3 then some 3
  else if matchTokCI cs ['F', 'U', 'L', 'L'] &&
      (let wsn := ((cs.drop 4).takeWhile jsIsWs).length
       matchTokCI ((cs.drop 4).drop wsn) ['H', 'D'] && boundaryAfterAt cs (6 + wsn)) then
    some (6 + ((cs.drop 4).takeWhile jsIsWs).length)
  else if matchTokCI cs ['1', '0', '8', '0', 'P'] && boundaryAfterAt cs 5 then some 5
  else if matchTokCI cs ['H', 'D'] && boundaryAfterAt cs 2 then some 2
  else if matchTokCI cs ['7', '2', '0', 'P'] && boundaryAfterAt cs 4 then some 4
  else if matchTokCI cs ['S', 'D'] && boundaryAfterAt cs 2 then some 2
  else none

def cleanNameStrip : Nat → Option Char → List Char → List Char
  | 0, _, cs => cs
  | _ + 1, _, [] => []
  | fuel + 1, prev, c :: rest =>
    match xCleanTokLenAt prev (c :: rest) with
    | some len =>
      cleanNameStrip fuel (some ((c :: rest).getD (len - 1) c)) ((c :: rest).drop len)
    | none => c :: cleanNameStrip fuel (some c) rest

/-- `cleanName` of `xtreamProvider.js`. -/
def cleanName (name : String) : String :=
  let stripped := cleanNameStrip name.data.length none name.data
  jsTrim (String.mk (collapseWs stripped.length stripped))

/-- `/FULL\s*HD/` on an (already upper-cased) character list. -/
def containsFullHD : List Char → Bool
  | [] => false
  | c :: t =>
    (['F', 'U', 'L', 'L'].isPrefixOf (c :: t) &&
      ['H', 'D'].isPrefixOf (((c :: t).drop 4).dropWhile jsIsWs)) ||
      containsFullHD t

/-- `detectQuality` of `xtreamProvider.js`: case-insensitive substring scan. -/
def detectQuality (name : String) : String :=
  let n := upperStr name
  if strContains n "4K" || strContains n "UHD" then "4K"
  else if strContains n "FHD" || containsFullHD n.data || strContains n "1080" then "FHD"
  else if strContains n "HD" || strContains n "720" then "HD"
  else "SD"

/-- `cryptoHash` of `xtreamProvider.js`: first 12 hex digits of md5. -/
def cryptoHash (text : String) : String := strTake (md5hex text) 12

/-- The ascending rank of `qualitySort`:
`order = (4K: 0, FHD: 1, HD: 2, SD: 3)`, unknown `9`. -/
def xOrder (q : String) : Nat :=
  if q = "4K" then 0 else if q = "FHD" then 1 else if q = "HD" then 2
  else if q = "SD" then 3 else 9

def xStreamLe (a b : QStream) : Prop := xOrder a.quality ≤ xOrder b.quality

instance : DecidableRel xStreamLe := fun _ _ => Nat.decLe _ _

instance : IsTotal QStream xStreamLe :=
  ⟨fun a b => (Nat.le_total (xOrder a.quality) (xOrder b.quality)).imp id id⟩

instance : IsTrans QStream xStreamLe :=
  ⟨fun _ _ _ h1 h2 => Nat.le_trans h1 h2⟩

/-! ## `xtreamProvider.js` JSON-API live merge -/

/-- One entry of the provider's `get_live_streams` JSON payload (the fields
the source reads). An absent/empty `epg_channel_id` is the empty string. -/
structure XLive where
  name : String
  epg_channel_id : String
  category_id : String
  category_name : String
  stream_id : Nat
  stream_icon : String
deriving DecidableEq

/-- The merge key of the JSON path: `s.epg_channel_id || baseName`. -/
def xKey (s : XLive) : String :=
  if s.epg_channel_id ≠ "" then s.epg_channel_id else cleanName s.name

/-- `liveCatMap[s.category_id] || s.category_name || s.category_id || 'Live'`. -/
def xCat (catMap : List (String × String)) (s : XLive) : String :=
  (jsOrStr (alistGet catMap s.category_id)
    (jsOrStr (some s.category_name) (jsOrStr (some s.category_id) (some "Live")))).getD "Live"

def mkXStream (u usr pwd : String) (s : XLive) : QStream :=
  { quality := detectQuality s.name,
    url := u ++ "/live/" ++ usr ++ "/" ++ pwd ++ "/" ++ toString s.stream_id ++ ".m3u8",
    title := none,
    stream_id := some s.stream_id }

def mkXChannel (catMap : List (String × String)) (s : XLive) : Item :=
  { emptyItem with
    id := "iptv_live_" ++ cryptoHash (xKey s),
    name := cleanName s.name,
    itemType := "tv",
    logo := some s.stream_icon,
    category := some (xCat catMap s),
    epg_channel_id := some s.epg_channel_id,
    attributes := [("tvg-logo", s.stream_icon), ("tvg-id", s.epg_channel_id),
                   ("group-title", xCat catMap s)],
    streams := [] }

/-- Grouping step of the JSON live merge (streams are pushed; sorting and
the default url happen once, in `finalizeXChannel`). -/
def xtreamGroupStep (catMap : List (String × String)) (u usr pwd : String)
    (m : List (String × Item)) (s : XLive) : List (String × Item) :=
  let key := xKey s
  let ch0 := (alistGet m key).getD (mkXChannel catMap s)
  alistSet m key { ch0 with streams := ch0.streams ++ [mkXStream u usr pwd s] }

/-- `ch.streams.sort(qualitySort); ch.url = ch.streams[0]?.url`. -/
def finalizeXChannel (ch : Item) : Item :=
  let sts := ch.streams.insertionSort xStreamLe
  { ch with streams := sts, url := sts.head?.map (fun s => s.url) }

def mergeXtreamLive (catMap : List (String × String)) (u usr pwd : String)
    (live : List XLive) : List Item :=
  (live.foldl (xtreamGroupStep catMap u usr pwd) []).map (fun p => finalizeXChannel p.2)

/-! ## `xtreamProvider.js` movies / series mapping -/

structure XVod where
  name : String
  plot : String
  category_id : String
  category_name : String
  stream_icon : String
  releasedate : String
  container_extension : String
  stream_id : Nat
deriving DecidableEq

def mkVodItem (jsYear : String → Option Int) (catMap : List (String × String))
    (u usr pwd : String) (s : XVod) : Item :=
  let cat := (jsOrStr (alistGet catMap s.category_id)
    (jsOrStr (some s.category_name) (some "Movies"))).getD "Movies"
  { emptyItem with
    id := "iptv_vod_" ++ toString s.stream_id,
    name := s.name,
    itemType := "movie",
    url := some (u ++ "/movie/" ++ usr ++ "/" ++ pwd ++ "/" ++ toString s.stream_id ++ "." ++
      s.container_extension),
    poster := some s.stream_icon,
    plot := some s.plot,
    year := if s.releasedate ≠ "" then jsYear s.releasedate else none,
    category := some cat,
    attributes := [("tvg-logo", s.stream_icon), ("group-title", cat), ("plot", s.plot)],
    streams := [] }

structure XSeriesEntry where
  series_id : Nat
  name : String
  cover : String
  plot : String
  category_id : String
  category_name : String
deriving DecidableEq

def mkSeriesItem (catMap : List (String × String)) (s : XSeriesEntry) : Item :=
  let cat := (jsOrStr (alistGet catMap s.category_id)
    (jsOrStr (some s.category_name) (some "Series"))).getD "Series"
  { emptyItem with
    id := "iptv_series_" ++ toString s.series_id,
    series_id := some (toString s.series_id),
    name := s.name,
    itemType := "series",
    poster := some s.cover,
    plot := some s.plot,
    category := some cat,
    attributes := [("tvg-logo", s.cover), ("group-title", cat), ("plot", s.plot)],
    streams := [] }

/-! ### m3u-mode series de-duplication (`fetchData`, M3U branch) -/

/-- Index of the first `/\bS\d{1,2}E\d{1,2}\b/i` match, if any. -/
def sxxePos : Option Char → List Char → Nat → Option Nat
  | _, [], _ => none
  | prev, c :: rest, i =>
    if boundaryBefore prev && (c = 'S' || c = 's') && sxxeTail rest then some i
    else sxxePos (some c) rest (i + 1)

/-- `sc.name.replace(/\bS\d{1,2}E\d{1,2}\b.*$/i, '').trim()`. -/
def seriesBaseName (name : String) : String :=
  match sxxePos none name.data 0 with
  | some i => jsTrim (String.mk (name.data.take i))
  | none => jsTrim name

/-- Build attribute maps whose JS values may be `undefined`
(an undefined value reads back as missing, so the pair is omitted). -/
def attrsOfOpt (l : List (String × Option String)) : List (String × String) :=
  l.filterMap fun p => p.2.map fun v => (p.1, v)

def mkM3uSeries (baseName : String) (sc : Item) : Item :=
  let logo := jsOrStr sc.logo (alistGet sc.attributes "tvg-logo")
  let plotv := ((alistGet sc.attributes "plot").getD "")
  { emptyItem with
    id := "iptv_series_" ++ cryptoHash baseName,
    series_id := some (cryptoHash baseName),
    name := baseName,
    itemType := "series",
    poster := logo,
    plot := some plotv,
    category := sc.category,
    attributes := attrsOfOpt [("tvg-logo", logo),
      ("group-title", jsOrStr sc.category (alistGet sc.attributes "group-title")),
      ("plot", some plotv)],
    streams := [] }

def dedupSeriesStep (seen : List (String × Item)) (sc : Item) : List (String × Item) :=
  let baseName := seriesBaseName sc.name
  if (alistGet seen baseName).isSome then seen
  else alistSet seen baseName (mkM3uSeries baseName sc)

/-! ## Configuration, `createCacheKey`, addon state, `fetchData`, `updateData` -/

structure AddonConfig where
  provider : Option String
  m3uUrl : Option String
  epgUrl : Option String
  enableEpg : Bool
  xtreamUrl : Option String
  xtreamUsername : Option String
  xtreamPassword : Option String
  xtreamUseM3U : Bool
  xtreamOutput : Option String
  epgOffsetHours : Option Int
  includeSeries : Option Bool
deriving DecidableEq

/-- `config.includeSeries !== false` (default true). -/
def cfgIncludeSeries (c : AddonConfig) : Bool := c.includeSeries ≠ some false

/-- The two-character short escapes JSON.stringify uses for control
characters (codepoints 8, 9, 10, 12, 13). -/
def jsonShortEscape (n : Nat) : Option Char :=
  if n = 8 then some 'b'
  else if n = 9 then some 't'
  else if n = 10 then some 'n'
  else if n = 12 then some 'f'
  else if n = 13 then some 'r'
  else none

def jsonEscapeChar (c : Char) : List Char :=
  let n := c.toNat
  if n = 34 ∨ n = 92 then ['\\', c]
  else if 32 ≤ n then [c]
  else
    match jsonShortEscape n with
    | some e => ['\\', e]
    | none =>
      let hi := hexChar (n / 16)
      let lo := hexChar (n % 16)
      ['\\', 'u', '0', '0', hi, lo]

def jsonStr (s : String) : String :=
  "\"" ++ String.mk ((s.data.map jsonEscapeChar).flatten) ++ "\""

def jsonBool (b : Bool) : String := if b then "true" else "false"

def jsonField (k : String) (v : Option String) : List String :=
  match v with
  | some j => [jsonStr k ++ ":" ++ j]
  | none => []

/-- `stableStringify(minimal)`: `JSON.stringify` with the sorted key list as
replacer array serializes the listed keys in sorted order and omits keys
whose value is `undefined`. -/
def stableStringifyMinimal (c : AddonConfig) : String :=
  let fields : List String :=
    jsonField "enableEpg" (some (jsonBool c.enableEpg)) ++
    jsonField "epgOffsetHours" (c.epgOffsetHours.map toString) ++
    jsonField "epgUrl" (c.epgUrl.map jsonStr) ++
    jsonField "includeSeries" (some (jsonBool (cfgIncludeSeries c))) ++
    jsonField "m3uUrl" (c.m3uUrl.map jsonStr) ++
    jsonField "provider" (c.provider.map jsonStr) ++
    jsonField "xtreamOutput" (c.xtreamOutput.map jsonStr) ++
    jsonField "xtreamUrl" (c.xtreamUrl.map jsonStr) ++
    jsonField "xtreamUseM3U" (some (jsonBool c.xtreamUseM3U)) ++
    jsonField "xtreamUsername" (c.xtreamUsername.map jsonStr)
  "\x7b" ++ String.intercalate "," fields ++ "\x7d"

/-- `createCacheKey` of `addon.js` (the configuration fingerprint): md5 of
the stable stringification of the projected fields. Note that
`xtreamPassword` is not among them. -/
def createCacheKey (c : AddonConfig) : String := md5hex (stableStringifyMinimal c)

structure Programme where
  start : String
  stop : String
  title : String
  desc : String
deriving DecidableEq

structure AddonState where
  channels : List Item
  movies : List Item
  series : List Item
  epgData : List (String × List Programme)
  lastUpdate : Int
deriving DecidableEq

/-- Results of the network fetches (and of the external XML/date parsers)
one `fetchData` run would perform; `Except` carries a thrown error for the
core feeds, `Option`/lists model the best-effort auxiliary feeds. -/
structure FetchEnv where
  m3uText : Except String String
  live : Except String (List XLive)
  vod : Except String (List XVod)
  liveCats : List (String × String)
  vodCats : List (String × String)
  seriesOk : Option (List XSeriesEntry)
  seriesCats : List (String × String)
  epgParsed : Option (List (String × List Programme))
  jsYear : String → Option Int

/-- `fetchData` of `xtreamProvider.js`: credential check, then the state is
cleared, then the selected mode populates it; a throw after the clearing
leaves the cleared fields behind. Returns the mutated state and the thrown
error, if any. -/
def fetchData (cfg : AddonConfig) (env : FetchEnv) (st : AddonState) :
    AddonState × Option String :=
  let u := cfg.xtreamUrl.getD ""
  let usr := cfg.xtreamUsername.getD ""
  let pwd := cfg.xtreamPassword.getD ""
  if u = "" ∨ usr = "" ∨ pwd = "" then (st, some "Xtream credentials incomplete")
  else
    let st1 : AddonState :=
      { st with channels := [], movies := [],
                series := if cfgIncludeSeries cfg then [] else st.series, epgData := [] }
    let core : AddonState × Option String :=
      if cfg.xtreamUseM3U then
        match env.m3uText with
        | .error e => (st1, some e)
        | .ok text =>
          let items := parseM3U text
          let st2 :=
            { st1 with channels := items.filter (fun i => i.itemType = "tv"),
                       movies := items.filter (fun i => i.itemType = "movie") }
          let st3 := if cfgIncludeSeries cfg then
              { st2 with series :=
                  (((items.filter (fun i => i.itemType = "series")).foldl dedupSeriesStep []).map
                    (fun p => p.2)) }
            else st2
          (st3, none)
      else
        match env.live with
        | .error e => (st1, some e)
        | .ok live =>
          match env.vod with
          | .error e => (st1, some e)
          | .ok vod =>
            let st2 := { st1 with channels := mergeXtreamLive env.liveCats u usr pwd live }
            let st3 := { st2 with movies := vod.map (mkVodItem env.jsYear env.vodCats u usr pwd) }
            let st4 := if cfgIncludeSeries cfg then
                match env.seriesOk with
                | some sl => { st3 with series := sl.map (mkSeriesItem env.seriesCats) }
                | none => st3
              else st3
            (st4, none)
    match core with
    | (stc, some e) => (stc, some e)
    | (stc, none) =>
      if cfg.enableEpg then
        match env.epgParsed with
        | some m => ({ stc with epgData := m }, none)
        | none => (stc, none)
      else (stc, none)

/-- `updateData` of `addon.js`: the two freshness short-circuits apply only
when `force` is false and caching is enabled; otherwise the provider fetch
runs and errors are caught, leaving whatever state `fetchData` produced.
Returns the new state and whether the provider fetch was invoked.
(`now` is `Date.now()` at entry, `now2` the one taken after the fetch.) -/
def updateData (cacheEnabled : Bool) (cfg : AddonConfig) (env : FetchEnv) (st : AddonState)
    (force : Bool) (now now2 : Int) : AddonState × Bool :=
  if !force ∧ cacheEnabled ∧ st.lastUpdate ≠ 0 ∧ now - st.lastUpdate < 3600000 then (st, false)
  else if !force ∧ cacheEnabled ∧ (st.channels ≠ [] ∨ st.movies ≠ [] ∨ st.series ≠ []) ∧
      now - st.lastUpdate < 900000 then (st, false)
  else
    match fetchData cfg env st with
    | (st', none) => ({ st' with lastUpdate := now2 }, true)
    | (st', some _) => (st', true)

/-! ## `createAddon` build coalescing (`buildPromiseCache`) -/

/-- One `createAddon` call against the module-level `buildPromiseCache`.
`built` is the outcome the builder's promise would settle to if it ran
(the interface abstracted to `Unit`, a rejection to its message).
Mirrors the source: the promise is stored under the fingerprint before it
is awaited and the `finally` block deliberately keeps it cached after it
settles. Returns (returned outcome, cache afterwards, whether the builder
ran). -/
def createAddonStep (cacheEnabled : Bool) (cache : List (String × Except String Unit))
    (cfg : AddonConfig) (built : Except String Unit) :
    Except String Unit × List (String × Except String Unit) × Bool :=
  let key := createCacheKey cfg
  match (if cacheEnabled then alistGet cache key else none) with
  | some p => (p, cache, false)
  | none => (built, if cacheEnabled then alistSet cache key built else cache, true)

/-! ## EPG time parsing and queries (`parseEPGTime`, `getCurrentProgram`,
`getUpcomingPrograms`)

The process wall clock read by `new Date()`, the host timezone used by the
local `new Date(y, m, d, h, mi, s)` constructor and the generic `new
Date(string)` parser are side effects of the source; the embedding passes
them in through `EpgEnv`. Instants are integer Unix milliseconds. -/

/-- Days from 1970-01-01 of a civil date (proleptic Gregorian,
Howard Hinnant's algorithm); `m` is 1-based and must be in `[1, 12]`. -/
def daysFromCivil (y m d : Int) : Int :=
  let y2 := y - (if m ≤ 2 then 1 else 0)
  let era := Int.fdiv y2 400
  let yoe := y2 - era * 400
  let mp := Int.emod (m + 9) 12
  let doy := Int.fdiv (153 * mp + 2) 5 + d - 1
  let doe := yoe * 365 + Int.fdiv yoe 4 - Int.fdiv yoe 100 + doy
  era * 146097 + doe - 719468

/-- ECMAScript `MakeDay`/`MakeDate` for `new Date(y, monIdx, d, h, mi, s)`
(months normalize into years; day/time fields may overflow; two-digit years
map to 19xx), as a UTC-naive millisecond count — the host's offset is
subtracted by the caller. -/
def jsMakeDateMs (y monIdx d h mi s : Int) : Int :=
  let y1 := if 0 ≤ y ∧ y ≤ 99 then y + 1900 else y
  let ym := y1 + Int.fdiv monIdx 12
  let mn := Int.emod monIdx 12
  daysFromCivil ym (mn + 1) 1 * 86400000 + (d - 1) * 86400000 +
    h * 3600000 + mi * 60000 + s * 1000

def isLeap (y : Int) : Bool :=
  (Int.emod y 4 = 0 && Int.emod y 100 ≠ 0) || Int.emod y 400 = 0

def daysInMonth (y m : Int) : Int :=
  if m = 2 then (if isLeap y then 29 else 28)
  else if m = 4 ∨ m = 6 ∨ m = 9 ∨ m = 11 then 30
  else 31

/-- Validity of the ISO string the source builds in the timezone branch of
`parseEPGTime` (`new Date` on an out-of-range ISO string is `Invalid Date`;
a year below 1000 prints with fewer than four digits and is not ISO). -/
def isoValid (y mo d h mi s th tm : Nat) : Bool :=
  1000 ≤ y && 1 ≤ mo && mo ≤ 12 && 1 ≤ d && (d : Int) ≤ daysInMonth (y : Int) (mo : Int) &&
    ((h ≤ 23 && mi ≤ 59 && s ≤ 59) || (h = 24 && mi = 0 && s = 0)) && th ≤ 23 && tm ≤ 59

def isoMsOf (y mo d h mi s : Nat) (neg : Bool) (th tm : Nat) : Int :=
  daysFromCivil (y : Int) (mo : Int) (d : Int) * 86400000 +
    ((h : Int) * 3600000 + (mi : Int) * 60000 + (s : Int) * 1000) -
    (if neg then -1 else 1) * ((th : Int) * 3600000 + (tm : Int) * 60000)

/-- The optional `(?:\s*([+\-]\d{4}))?` group after the 14 digits. -/
def tzParse (cs : List Char) : Option (Bool × Nat × Nat) :=
  match cs.dropWhile jsIsWs with
  | c :: d1 :: d2 :: d3 :: d4 :: _ =>
    if (c = '+' ∨ c = '-') ∧ jsIsDigit d1 ∧ jsIsDigit d2 ∧ jsIsDigit d3 ∧ jsIsDigit d4 then
      some (c = '-', digitsToNat [d1, d2], digitsToNat [d3, d4])
    else none
  | _ => none

structure EpgEnv where
  nowMs : Int
  localOffsetMs : Int
  epgOffsetMs : Int
  jsDate : String → Option Int

/-- `parseEPGTime` of `addon.js`; `none` models an `Invalid Date` result.
An empty input returns `new Date()`, i.e. the wall clock. The configured
`epgOffsetHours` (here in milliseconds) is added at the end (adding the
zero offset the code would skip is the identity). -/
def parseEPGTime (env : EpgEnv) (s : String) : Option Int :=
  if s = "" then some env.nowMs
  else
    let cs := s.data
    let base := cs.take 14
    if base.length = 14 ∧ base.all jsIsDigit then
      let y := digitsToNat (base.take 4)
      let mo := digitsToNat ((base.drop 4).take 2)
      let d := digitsToNat ((base.drop 6).take 2)
      let h := digitsToNat ((base.drop 8).take 2)
      let mi := digitsToNat ((base.drop 10).take 2)
      let sec := digitsToNat ((base.drop 12).take 2)
      let isoMs : Option Int :=
        match tzParse (cs.drop 14) with
        | some (neg, th, tm) =>
          if isoValid y mo d h mi sec th tm then some (isoMsOf y mo d h mi sec neg th tm)
          else none
        | none => none
      let dateMs :=
        match isoMs with
        | some v => v
        | none => jsMakeDateMs (y : Int) ((mo : Int) - 1) (d : Int) (h : Int) (mi : Int)
            (sec : Int) - env.localOffsetMs
      some (dateMs + env.epgOffsetMs)
    else
      match env.jsDate s with
      | some t => some (t + env.epgOffsetMs)
      | none => none

/-- The object `getCurrentProgram` returns
(`start`/`startTime` and `stop`/`stopTime` are the same Date). -/
structure NowEntry where
  title : String
  description : String
  startMs : Option Int
  stopMs : Option Int
deriving DecidableEq

/-- `now >= start && now <= stop` (comparisons against `Invalid Date` are
false). -/
def progMatchesNow (env : EpgEnv) (p : Programme) : Bool :=
  (match parseEPGTime env p.start with
   | some a => decide (a ≤ env.nowMs)
   | none => false) &&
  (match parseEPGTime env p.stop with
   | some b => decide (env.nowMs ≤ b)
   | none => false)

/-- `getCurrentProgram` of `addon.js`. `now` is the wall clock captured by
`new Date()` at entry, i.e. `env.nowMs`. -/
def getCurrentProgram (env : EpgEnv) (epgData : List (String × List Programme))
    (channelId : String) : Option NowEntry :=
  if channelId = "" then none
  else
    match alistGet epgData channelId with
    | none => none
    | some progs =>
      (progs.find? (progMatchesNow env)).map fun p =>
        ⟨p.title, p.desc, parseEPGTime env p.start, parseEPGTime env p.stop⟩

structure UpEntry where
  title : String
  description : String
  startMs : Int
  stopMs : Option Int
deriving DecidableEq

/-- The entry `getUpcomingPrograms` would push for `p`, when `p` qualifies
(`start > now`; an `Invalid Date` start never qualifies). -/
def upEntry? (env : EpgEnv) (p : Programme) : Option UpEntry :=
  match parseEPGTime env p.start with
  | some t =>
    if env.nowMs < t then some ⟨p.title, p.desc, t, parseEPGTime env p.stop⟩ else none
  | none => none

def upLe (a b : UpEntry) : Prop := a.startMs ≤ b.startMs

instance : DecidableRel upLe := fun _ _ => Int.decLe _ _

instance : IsTotal UpEntry upLe := ⟨fun a b => Int.le_total a.startMs b.startMs⟩

instance : IsTrans UpEntry upLe := ⟨fun _ _ _ h1 h2 => Int.le_trans h1 h2⟩

/-- The collection loop of `getUpcomingPrograms`: qualifying entries are
appended in feed order while fewer than `limit` have been collected. -/
def upLoop (env : EpgEnv) (limit : Nat) : List Programme → List UpEntry → List UpEntry
  | [], acc => acc
  | p :: rest, acc =>
    match upEntry? env p with
    | some e =>
      if acc.length < limit then upLoop env limit rest (acc ++ [e])
      else upLoop env limit rest acc
    | none => upLoop env limit rest acc

/-- `getUpcomingPrograms` of `addon.js`: collect (in feed order, capped at
`limit`), then sort ascending by start. -/
def getUpcomingPrograms (env : EpgEnv) (epgData : List (String × List Programme))
    (channelId : String) (limit : Nat) : List UpEntry :=
  if channelId = "" then []
  else
    match alistGet epgData channelId with
    | none => []
    | some progs => (upLoop env limit progs []).insertionSort upLe

/-- The behaviour claim C7 describes, written from the spec's words: all
entries with `start > now`, sorted ascending by start, then truncated to
the first `limit` of that order. (For comparison with the code's
`getUpcomingPrograms`.) -/
def claimUpcomingPrograms (env : EpgEnv) (epgData : List (String × List Programme))
    (channelId : String) (limit : Nat) : List UpEntry :=
  if channelId = "" then []
  else
    match alistGet epgData channelId with
    | none => []
    | some progs => ((progs.filterMap (upEntry? env)).insertionSort upLe).take limit

/-! ## Proof support: stable sorting, association lists -/

/-- Insert `x` after all already-placed elements it ties with: the list
position a stable sort gives to a newly appended element. -/
def insertAfter {α : Type} (r : α → α → Prop) [DecidableRel r] (x : α) : List α → List α
  | [] => [x]
  | b :: l => if r b x then b :: insertAfter r x l else x :: b :: l

theorem orderedInsert_insertAfter_comm {α : Type} (r : α → α → Prop) [DecidableRel r]
    [IsTotal α r] [IsTrans α r] (a x : α) (S : List α) :
    List.orderedInsert r a (insertAfter r x S) = insertAfter r x (List.orderedInsert r a S) := by
  induction S with
  | nil =>
    by_cases hax : r a x <;> simp [insertAfter, List.orderedInsert, hax]
  | cons b S ih =>
    by_cases hab : r a b <;> by_cases hbx : r b x
    · have hax : r a x := IsTrans.trans a b x hab hbx
      simp [insertAfter, List.orderedInsert, hab, hbx, hax]
    · by_cases hax : r a x <;>
        simp [insertAfter, List.orderedInsert, hab, hbx, hax]
    · simp [insertAfter, List.orderedInsert, hab, hbx, ih]
    · have hxb : r x b := (IsTotal.total (r := r) b x).resolve_left hbx
      have hax : ¬ r a x := fun hax => hab (IsTrans.trans a x b hax hxb)
      simp [insertAfter, List.orderedInsert, hab, hbx, hax]

theorem insertionSort_append_single {α : Type} (r : α → α → Prop) [DecidableRel r]
    [IsTotal α r] [IsTrans α r] (l : List α) (x : α) :
    List.insertionSort r (l ++ [x]) = insertAfter r x (List.insertionSort r l) := by
  induction l with
  | nil => simp [List.insertionSort, insertAfter]
  | cons a l ih =>
    simp [List.insertionSort, ih, orderedInsert_insertAfter_comm]

/-- Re-sorting an already sorted list with one element appended equals
sorting the underlying list with that element appended: sorting after each
push (playlist path) produces the same stable order as one final sort. -/
theorem insertionSort_insertionSort_append {α : Type} (r : α → α → Prop) [DecidableRel r]
    [IsTotal α r] [IsTrans α r] (l : List α) (x : α) :
    List.insertionSort r (List.insertionSort r l ++ [x]) = List.insertionSort r (l ++ [x]) := by
  rw [insertionSort_append_single, insertionSort_append_single,
    (List.sorted_insertionSort r l).insertionSort_eq]

/-- Stability of the sort, as tie-class preservation: filtering by a
predicate whose satisfying elements are pairwise related commutes with
sorting (equal-rank elements keep their original order). -/
theorem insertionSort_filter_stable {α : Type} (r : α → α → Prop) [DecidableRel r]
    [IsTotal α r] [IsTrans α r] (l : List α) (p : α → Bool)
    (hp : ∀ a b, p a = true → p b = true → r a b) :
    (List.insertionSort r l).filter p = l.filter p := by
  have hc : ∀ a ∈ l.filter p, p a = true := fun a ha => List.of_mem_filter ha
  have hpair : (l.filter p).Pairwise r :=
    List.pairwise_of_forall_mem_list fun a ha b hb =>
      hp a b (List.of_mem_filter ha) (List.of_mem_filter hb)
  have h2 : List.Sublist (l.filter p) (List.insertionSort r l) :=
    List.sublist_insertionSort hpair (List.filter_sublist l)
  have h3 : List.Sublist (l.filter p) ((List.insertionSort r l).filter p) := by
    have h := h2.filter p
    rwa [List.filter_eq_self.mpr hc] at h
  have h4 : ((List.insertionSort r l).filter p).length = (l.filter p).length :=
    ((List.perm_insertionSort r l).filter p).length_eq
  exact (h3.eq_of_length h4.symm).symm

theorem alistGet_set_self {β : Type} (m : List (String × β)) (k : String) (v : β) :
    alistGet (alistSet m k v) k = some v := by
  induction m with
  | nil => simp [alistGet, alistSet]
  | cons p rest ih =>
    by_cases h : p.1 = k <;> simp [alistGet, alistSet, h, ih]

theorem alistGet_set_ne {β : Type} (m : List (String × β)) (k k' : String) (v : β)
    (h : k' ≠ k) : alistGet (alistSet m k' v) k = alistGet m k := by
  induction m with
  | nil => simp [alistGet, alistSet, h]
  | cons p rest ih =>
    by_cases hp : p.1 = k' <;> by_cases hk : p.1 = k <;>
      simp_all [alistGet, alistSet]

/-- Keys of an association list are pairwise distinct. -/
def alistNodupKeys {β : Type} (m : List (String × β)) : Prop :=
  m.Pairwise fun a b => a.1 ≠ b.1

theorem mem_alistSet {β : Type} (m : List (String × β)) (k : String) (v : β)
    (b : String × β) (hb : b ∈ alistSet m k v) : b = (k, v) ∨ b ∈ m := by
  induction m with
  | nil => simpa [alistSet] using hb
  | cons p rest ih =>
    by_cases hp : p.1 = k
    · simp only [alistSet, if_pos hp, List.mem_cons] at hb
      rcases hb with hb | hb
      · exact Or.inl hb
      · exact Or.inr (List.mem_cons_of_mem p hb)
    · simp only [alistSet, if_neg hp, List.mem_cons] at hb
      rcases hb with hb | hb
      · exact Or.inr (by simp [hb])
      · rcases ih hb with h | h
        · exact Or.inl h
        · exact Or.inr (List.mem_cons_of_mem p h)

theorem alistNodupKeys_set {β : Type} (m : List (String × β)) (k : String) (v : β)
    (h : alistNodupKeys m) : alistNodupKeys (alistSet m k v) := by
  induction m with
  | nil => simp [alistNodupKeys, alistSet]
  | cons p rest ih =>
    rcases h with _ | ⟨hp, hrest⟩
    by_cases hk : p.1 = k
    · subst hk
      simp only [alistNodupKeys, alistSet, if_pos rfl]
      exact List.Pairwise.cons (by simpa using hp) hrest
    · simp only [alistNodupKeys, alistSet, if_neg hk]
      refine List.Pairwise.cons ?_ (ih hrest)
      intro b hb
      rcases mem_alistSet rest k v b hb with hb | hb
      · simpa [hb] using hk
      · exact hp b hb

theorem alistGet_of_mem {β : Type} (m : List (String × β)) (k : String) (v : β)
    (hnd : alistNodupKeys m) (hm : (k, v) ∈ m) : alistGet m k = some v := by
  induction m with
  | nil => simp at hm
  | cons p rest ih =>
    rcases hnd with _ | ⟨hp, hrest⟩
    rcases List.mem_cons.mp hm with h | h
    · simp [← h, alistGet]
    · have hne : p.1 ≠ k := by
        have := hp (k, v) h
        simpa using this
      simp [alistGet, hne, ih hrest h]

/-! ## Fold characterizations of the two channel mergers -/

/-- The channel the playlist merger builds from the (nonempty) list of
same-key records: metadata first-wins, streams the stable best-first sort
of all contributed streams, default url the first stream's. -/
def mergedTvChannel (rs : List TvRec) : Option Item :=
  match rs with
  | [] => none
  | r0 :: _ =>
    let sts := (rs.map mkTvStream).insertionSort pStreamLe
    some { mkTvChannel r0 with streams := sts, url := sts.head?.map fun s => s.url }

theorem mergeTvFold_lookup (rs : List TvRec) (k : String) :
    alistGet (rs.foldl mergeTvStep []) k = mergedTvChannel (rs.filter fun r => r.key = k) := by
  induction rs using List.reverseRecOn generalizing k with
  | nil => simp [mergedTvChannel, alistGet]
  | append_singleton rs r ih =>
    rw [List.foldl_append, List.foldl_cons, List.foldl_nil]
    have hstep : mergeTvStep (rs.foldl mergeTvStep []) r =
        alistSet (rs.foldl mergeTvStep []) r.key
          (let ch0 := (alistGet (rs.foldl mergeTvStep []) r.key).getD (mkTvChannel r)
           let sts := (ch0.streams ++ [mkTvStream r]).insertionSort pStreamLe
           { ch0 with streams := sts, url := sts.head?.map fun s => s.url }) := rfl
    by_cases hk : r.key = k
    · subst hk
      rw [hstep, alistGet_set_self, ih r.key, List.filter_append]
      rcases hsel : rs.filter (fun r' => r'.key = r.key) with _ | ⟨r0, tl⟩
      · simp [mergedTvChannel, hsel]
      · simp only [hsel, mergedTvChannel, Option.getD_some]
        rw [insertionSort_insertionSort_append]
        simp [List.map_append]
    · rw [hstep, alistGet_set_ne _ _ _ _ hk, ih k, List.filter_append]
      simp [List.filter_cons, hk]

/-- The channel the JSON-path grouping builds from the (nonempty) list of
same-key records: metadata first-wins, streams appended in feed order
(sorting and the default url are applied afterwards by
`finalizeXChannel`). -/
def groupedXChannel (catMap : List (String × String)) (u usr pwd : String)
    (ls : List XLive) : Option Item :=
  match ls with
  | [] => none
  | s0 :: _ => some { mkXChannel catMap s0 with streams := ls.map (mkXStream u usr pwd) }

theorem xtreamGroupFold_lookup (catMap : List (String × String)) (u usr pwd : String)
    (ls : List XLive) (k : String) :
    alistGet (ls.foldl (xtreamGroupStep catMap u usr pwd) []) k
      = groupedXChannel catMap u usr pwd (ls.filter fun s => xKey s = k) := by
  induction ls using List.reverseRecOn generalizing k with
  | nil => simp [groupedXChannel, alistGet]
  | append_singleton ls s ih =>
    rw [List.foldl_append, List.foldl_cons, List.foldl_nil]
    have hstep : xtreamGroupStep catMap u usr pwd (ls.foldl (xtreamGroupStep catMap u usr pwd) []) s =
        alistSet (ls.foldl (xtreamGroupStep catMap u usr pwd) []) (xKey s)
          (let ch0 := (alistGet (ls.foldl (xtreamGroupStep catMap u usr pwd) []) (xKey s)).getD
            (mkXChannel catMap s)
           { ch0 with streams := ch0.streams ++ [mkXStream u usr pwd s] }) := rfl
    by_cases hk : xKey s = k
    · subst hk
      rw [hstep, alistGet_set_self, ih (xKey s), List.filter_append]
      rcases hsel : ls.filter (fun s' => xKey s' = xKey s) with _ | ⟨s0, tl⟩
      · simp [groupedXChannel, hsel, mkXChannel]
      · simp only [hsel, groupedXChannel, Option.getD_some]
        simp [List.map_append]
    · rw [hstep, alistGet_set_ne _ _ _ _ hk, ih k, List.filter_append]
      simp [List.filter_cons, hk]

theorem xtreamGroupFold_nodup (catMap : List (String × String)) (u usr pwd : String)
    (ls : List XLive) :
    alistNodupKeys (ls.foldl (xtreamGroupStep catMap u usr pwd) []) := by
  induction ls using List.reverseRecOn with
  | nil => exact List.Pairwise.nil
  | append_singleton ls s ih =>
    rw [List.foldl_append, List.foldl_cons, List.foldl_nil]
    exact alistNodupKeys_set _ _ _ ih

/-- Every channel `mergeXtreamLive` emits is the finalization of the
grouped channel of a nonempty selection of same-key records. -/
theorem mergeXtreamLive_mem (catMap : List (String × String)) (u usr pwd : String)
    (ls : List XLive) (ch : Item) (hch : ch ∈ mergeXtreamLive catMap u usr pwd ls) :
    ∃ k s0 tl, ls.filter (fun s => xKey s = k) = s0 :: tl ∧
      ch = finalizeXChannel
        { mkXChannel catMap s0 with streams := (s0 :: tl).map (mkXStream u usr pwd) } := by
  rcases List.mem_map.mp hch with ⟨p, hp, rfl⟩
  have hget : alistGet (ls.foldl (xtreamGroupStep catMap u usr pwd) []) p.1 = some p.2 :=
    alistGet_of_mem _ _ _ (xtreamGroupFold_nodup catMap u usr pwd ls) hp
  rw [xtreamGroupFold_lookup] at hget
  rcases hsel : ls.filter (fun s => xKey s = p.1) with _ | ⟨s0, tl⟩
  · rw [hsel] at hget; simp [groupedXChannel] at hget
  · rw [hsel] at hget
    simp only [groupedXChannel, Option.some_inj] at hget
    exact ⟨p.1, s0, tl, hsel, by rw [← hget]⟩

/-- The collection loop of `getUpcomingPrograms` collects exactly the first
`limit` qualifying entries in feed order. -/
theorem upLoop_eq (env : EpgEnv) (limit : Nat) (progs : List Programme) (acc : List UpEntry) :
    upLoop env limit progs acc = acc ++ (progs.filterMap (upEntry? env)).take (limit - acc.length) := by
  induction progs generalizing acc with
  | nil => simp [upLoop]
  | cons p rest ih =>
    cases h : upEntry? env p with
    | none => simp [upLoop, h, ih, List.filterMap_cons]
    | some e =>
      by_cases hlen : acc.length < limit
      · have hn : limit - acc.length = (limit - (acc ++ [e]).length) + 1 := by
          simp only [List.length_append, List.length_cons, List.length_nil]
          omega
        simp [upLoop, h, hlen, ih, List.filterMap_cons, hn, List.take_succ_cons]
      · have hn : limit - acc.length = 0 := by omega
        simp [upLoop, h, hlen, ih, List.filterMap_cons, hn]

instance : DecidableEq (Except String Unit) := fun a b =>
  match a, b with
  | .error e1, .error e2 =>
    if h : e1 = e2 then isTrue (by rw [h]) else isFalse (by simp [h])
  | .ok _, .ok _ => isTrue rfl
  | .error _, .ok _ => isFalse (by simp)
  | .ok _, .error _ => isFalse (by simp)

/-! ## Concrete fixtures used by witnesses and counterexamples -/

def cfgX : AddonConfig :=
  ⟨some "xtream", none, none, false, some "http://h", some "u", some "p", false, none, none, none⟩

def cfgP1 : AddonConfig :=
  ⟨some "xtream", none, none, true, some "http://host", some "alice", some "pw1", false, none,
    some 0, none⟩

def cfgP2 : AddonConfig := { cfgP1 with xtreamPassword := some "pw2" }

def cfgU2 : AddonConfig := { cfgP1 with xtreamUsername := some "bob" }

def cfgM3U : AddonConfig :=
  ⟨some "xtream", none, none, false, some "http://h", some "u", some "p", true, none, none, none⟩

def chSample : Item := { emptyItem with id := "iptv_live_x", name := "X", itemType := "tv" }

def stFresh : AddonState := ⟨[chSample], [], [], [], 1000⟩

def stLoaded : AddonState :=
  ⟨[chSample], [], [], [("bbc1", [⟨"20240101110000 +0000", "20240101130000 +0000", "News", "d"⟩])],
    5000⟩

def envOkM3U : FetchEnv :=
  ⟨Except.ok "#EXTM3U", Except.error "unused", Except.error "unused", [], [], none, [], none,
    fun _ => none⟩

def envLiveFail : FetchEnv :=
  ⟨Except.error "unused", Except.error "Xtream live streams fetch failed", Except.ok [], [], [],
    none, [], none, fun _ => none⟩

/-! ## Claim C2 -/

/-- Claim C2, counterexample: with caching enabled, a `createAddon` whose
build rejects leaves the settled (rejected) promise in
`buildPromiseCache`; a second call with the same fingerprint receives that
rejected result and does not invoke the builder — the in-flight marker is
not cleared on settlement, so there is no retry. -/
theorem build_marker_never_cleared_cex :
    (createAddonStep true [] cfgX (Except.error "boom")).1 = Except.error "boom" ∧
    alistGet (createAddonStep true [] cfgX (Except.error "boom")).2.1 (createCacheKey cfgX)
      = some (Except.error "boom") ∧
    (createAddonStep true (createAddonStep true [] cfgX (Except.error "boom")).2.1 cfgX
      (Except.ok ())).1 = Except.error "boom" ∧
    (createAddonStep true (createAddonStep true [] cfgX (Except.error "boom")).2.1 cfgX
      (Except.ok ())).2.2 = false := by
  decide

/-- Claim C2, amended: the fingerprint's marker in `buildPromiseCache` is
stored before the build is awaited and deliberately kept once it settles
(the `finally` block keeps the promise cached). With caching enabled, a
later call with the same fingerprint returns the stored settled outcome —
including a rejection — without invoking the builder; only with caching
disabled does every call run the builder. -/
theorem build_marker_kept :
    (∀ cache cfg b p, alistGet cache (createCacheKey cfg) = some p →
      createAddonStep true cache cfg b = (p, cache, false)) ∧
    (∀ cache cfg b, alistGet cache (createCacheKey cfg) = none →
      alistGet (createAddonStep true cache cfg b).2.1 (createCacheKey cfg) = some b ∧
      (createAddonStep true cache cfg b).1 = b ∧
      (createAddonStep true cache cfg b).2.2 = true) ∧
    (∀ cache cfg b, createAddonStep false cache cfg b = (b, cache, true)) := by
  refine ⟨fun cache cfg b p h => ?_, fun cache cfg b h => ?_, fun cache cfg b => ?_⟩
  · simp [createAddonStep, h]
  · simp [createAddonStep, h, alistGet_set_self]
  · simp [createAddonStep]

/-- Witness for `build_marker_kept` at a concrete cache and config. -/
theorem build_marker_kept_witness :
    createAddonStep true [(createCacheKey cfgX, Except.error "boom")] cfgX (Except.ok ())
      = (Except.error "boom", [(createCacheKey cfgX, Except.error "boom")], false) :=
  build_marker_kept.1 [(createCacheKey cfgX, Except.error "boom")] cfgX (Except.ok ())
    (Except.error "boom") (by simp [alistGet])

/-! ## Claim C4 -/

/-- Claim C4, counterexample: two configurations identical except for the
password credential receive the same `createCacheKey` fingerprint — the
password is not among the hashed fields. -/
theorem cacheKey_password_collision_cex :
    createCacheKey cfgP1 = createCacheKey cfgP2 ∧
    cfgP1.xtreamPassword ≠ cfgP2.xtreamPassword ∧
    cfgP1.provider = cfgP2.provider ∧ cfgP1.m3uUrl = cfgP2.m3uUrl ∧
    cfgP1.epgUrl = cfgP2.epgUrl ∧ cfgP1.enableEpg = cfgP2.enableEpg ∧
    cfgP1.xtreamUrl = cfgP2.xtreamUrl ∧ cfgP1.xtreamUsername = cfgP2.xtreamUsername ∧
    cfgP1.xtreamUseM3U = cfgP2.xtreamUseM3U ∧ cfgP1.xtreamOutput = cfgP2.xtreamOutput ∧
    cfgP1.epgOffsetHours = cfgP2.epgOffsetHours ∧ cfgP1.includeSeries = cfgP2.includeSeries := by
  decide

/-- Claim C4, amended: the fingerprint is a function of exactly the ten
projected fields (provider, m3uUrl, epgUrl, enableEpg, xtreamUrl,
xtreamUsername, xtreamUseM3U, xtreamOutput, epgOffsetHours,
includeSeries); the password is excluded, so configurations differing only
in the password share a fingerprint, while configurations differing in an
included field (e.g. the username) get different fingerprints. -/
theorem createCacheKey_fields :
    (∀ c1 c2 : AddonConfig, c1.provider = c2.provider → c1.m3uUrl = c2.m3uUrl →
      c1.epgUrl = c2.epgUrl → c1.enableEpg = c2.enableEpg → c1.xtreamUrl = c2.xtreamUrl →
      c1.xtreamUsername = c2.xtreamUsername → c1.xtreamUseM3U = c2.xtreamUseM3U →
      c1.xtreamOutput = c2.xtreamOutput → c1.epgOffsetHours = c2.epgOffsetHours →
      c1.includeSeries = c2.includeSeries → createCacheKey c1 = createCacheKey c2) ∧
    createCacheKey cfgP1 ≠ createCacheKey cfgU2 := by
  constructor
  · intro c1 c2 h1 h2 h3 h4 h5 h6 h7 h8 h9 h10
    simp [createCacheKey, stableStringifyMinimal, cfgIncludeSeries,
      h1, h2, h3, h4, h5, h6, h7, h8, h9, h10]
  · decide

/-- Witness for `createCacheKey_fields` on the concrete password-only pair. -/
theorem createCacheKey_fields_witness : createCacheKey cfgP1 = createCacheKey cfgP2 :=
  createCacheKey_fields.1 cfgP1 cfgP2 rfl rfl rfl rfl rfl rfl rfl rfl rfl rfl

/-! ## Claim C5 -/

/-- Claim C5, counterexample: a snapshot 500 ms old (far younger than the
minor-refresh threshold of 900000 ms) does not short-circuit a forced
refresh: `updateData(force = true)` still invokes the provider fetch. -/
theorem forced_refresh_not_short_circuited_cex :
    (updateData true cfgM3U envOkM3U stFresh true 1500 1600).2 = true ∧
    stFresh.channels ≠ [] ∧ stFresh.lastUpdate = 1000 ∧
    ((1500 : Int) - stFresh.lastUpdate < 900000) := by
  decide

/-- Claim C5, amended: only non-forced refreshes are short-circuited. With
`force = true` the provider fetch always runs; with `force = false` and
caching enabled, a snapshot younger than the 3600000 ms interval (with a
nonzero `lastUpdate`), or nonempty content younger than the 900000 ms
minor threshold, returns without fetching. -/
theorem updateData_short_circuit :
    (∀ ce cfg env st now now2, (updateData ce cfg env st true now now2).2 = true) ∧
    (∀ cfg env st now now2, st.lastUpdate ≠ 0 → now - st.lastUpdate < 3600000 →
      updateData true cfg env st false now now2 = (st, false)) ∧
    (∀ cfg env st now now2, st.channels ≠ [] → now - st.lastUpdate < 900000 →
      updateData true cfg env st false now now2 = (st, false)) := by
  refine ⟨fun ce cfg env st now now2 => ?_, fun cfg env st now now2 h1 h2 => ?_,
    fun cfg env st now now2 h1 h2 => ?_⟩
  · rw [updateData]
    simp only [Bool.not_true, false_and, if_false]
    cases fetchData cfg env st with
    | mk st' err => cases err <;> simp
  · rw [updateData]
    simp [h1, h2]
  · rw [updateData]
    by_cases hfirst : st.lastUpdate ≠ 0 ∧ now - st.lastUpdate < 3600000
    · simp [hfirst.1, hfirst.2]
    · have h3600 : now - st.lastUpdate < 3600000 := by omega
      have hlu : st.lastUpdate = 0 := by
        by_contra hne
        exact hfirst ⟨hne, h3600⟩
      simp only [hlu] at h2
      simp [hlu, h1, h2]
      intro hge
      exact absurd hge (by omega)

/-- Witness for `updateData_short_circuit` (the non-forced short-circuit)
at a concrete fresh state. -/
theorem updateData_short_circuit_witness :
    updateData true cfgM3U envOkM3U stFresh false 1500 1600 = (stFresh, false) :=
  updateData_short_circuit.2.1 cfgM3U envOkM3U stFresh 1500 1600 (by decide) (by decide)

/-! ## Claim C3 -/

def cfgJson : AddonConfig :=
  ⟨some "xtream", none, none, false, some "http://h", some "u", some "p", false, none, none, none⟩

/-- Claim C3, counterexample: a refresh whose core live-stream fetch fails
blanks the previously published snapshot: `fetchData` clears the
instance's channels/movies/series/epgData before fetching, and the failure
(caught by `updateData`) leaves the cleared state in place. -/
theorem failed_refresh_blanks_cex :
    (updateData true cfgJson envLiveFail stLoaded true 10000 10001).1.channels = [] ∧
    (updateData true cfgJson envLiveFail stLoaded true 10000 10001).1.epgData = [] ∧
    stLoaded.channels ≠ [] ∧ stLoaded.epgData ≠ [] ∧
    (updateData true cfgJson envLiveFail stLoaded true 10000 10001).1 ≠ stLoaded := by
  decide

/-- Claim C3, amended: `fetchData` clears channels, movies, epgData (and
series, when series are included) before any network fetch; a run that
fails after this point (e.g. a core feed error) leaves those fields
empty — the previously published snapshot is blanked, not preserved —
while `lastUpdate` stays at its old value. Only a failure thrown before
the clearing (the incomplete-credentials check) leaves the snapshot
unchanged. -/
theorem fetchData_failure_state :
    (∀ cfg env st, cfg.xtreamUrl.getD "" = "" ∨ cfg.xtreamUsername.getD "" = "" ∨
        cfg.xtreamPassword.getD "" = "" →
      fetchData cfg env st = (st, some "Xtream credentials incomplete")) ∧
    (∀ cfg env st e, cfg.xtreamUrl.getD "" ≠ "" → cfg.xtreamUsername.getD "" ≠ "" →
        cfg.xtreamPassword.getD "" ≠ "" → cfg.xtreamUseM3U = false →
        env.live = Except.error e →
      fetchData cfg env st =
        ({ st with channels := [], movies := [],
                   series := if cfgIncludeSeries cfg then [] else st.series,
                   epgData := [] }, some e)) ∧
    (∀ cfg env st e now now2, cfg.xtreamUrl.getD "" ≠ "" → cfg.xtreamUsername.getD "" ≠ "" →
        cfg.xtreamPassword.getD "" ≠ "" → cfg.xtreamUseM3U = false →
        env.live = Except.error e →
      updateData true cfg env st true now now2 =
        ({ st with channels := [], movies := [],
                   series := if cfgIncludeSeries cfg then [] else st.series,
                   epgData := [] }, true)) := by
  have hcred : ∀ (cfg : AddonConfig) (env : FetchEnv) (st : AddonState) (e : String),
      cfg.xtreamUrl.getD "" ≠ "" → cfg.xtreamUsername.getD "" ≠ "" →
      cfg.xtreamPassword.getD "" ≠ "" → cfg.xtreamUseM3U = false →
      env.live = Except.error e →
      fetchData cfg env st =
        ({ st with channels := [], movies := [],
                   series := if cfgIncludeSeries cfg then [] else st.series,
                   epgData := [] }, some e) := by
    intro cfg env st e h1 h2 h3 h4 h5
    rw [fetchData]
    simp [h1, h2, h3, h4, h5]
  refine ⟨fun cfg env st h => ?_, hcred, fun cfg env st e now now2 h1 h2 h3 h4 h5 => ?_⟩
  · rw [fetchData]
    simp [h]
  · rw [updateData]
    rw [hcred cfg env st e h1 h2 h3 h4 h5]
    simp

/-- Witness for `fetchData_failure_state` at the concrete loaded state. -/
theorem fetchData_failure_state_witness :
    fetchData cfgJson envLiveFail stLoaded =
      ({ stLoaded with channels := [], movies := [],
                       series := if cfgIncludeSeries cfgJson then [] else stLoaded.series,
                       epgData := [] }, some "Xtream live streams fetch failed") :=
  fetchData_failure_state.2.1 cfgJson envLiveFail stLoaded "Xtream live streams fetch failed"
    (by decide) (by decide) (by decide) rfl rfl

/-! ## Claim C6 -/

def epgSample : List (String × List Programme) :=
  [("bbc1", [⟨"20240101110000 +0000", "20240101130000 +0000", "News", "d"⟩])]

/-- Wall clock at 2024-01-01T10:00:00Z, UTC host, zero configured offset. -/
def envEpgA : EpgEnv := ⟨1704103200000, 0, 0, fun _ => none⟩

/-- Same environment as `envEpgA` except the wall clock reads
2024-01-01T12:00:00Z. -/
def envEpgB : EpgEnv := ⟨1704110400000, 0, 0, fun _ => none⟩

/-- Claim C6, counterexample: `getCurrentProgram` and
`getUpcomingPrograms` read the process wall clock (`new Date()` inside the
functions — there is no caller-supplied "now"): two invocations with
identical channel key, limit and EPG data, in environments differing only
in the wall-clock instant, return different results. -/
theorem epg_queries_wall_clock_cex :
    envEpgA.localOffsetMs = envEpgB.localOffsetMs ∧
    envEpgA.epgOffsetMs = envEpgB.epgOffsetMs ∧
    envEpgA.jsDate = envEpgB.jsDate ∧
    envEpgA.nowMs ≠ envEpgB.nowMs ∧
    getCurrentProgram envEpgA epgSample "bbc1" ≠ getCurrentProgram envEpgB epgSample "bbc1" ∧
    getUpcomingPrograms envEpgA epgSample "bbc1" 5 ≠
      getUpcomingPrograms envEpgB epgSample "bbc1" 5 := by
  exact ⟨rfl, rfl, rfl, by decide, by decide, by decide⟩

/-- Claim C6, amended: the queries take no caller-supplied "now"; they read
the process wall clock, and their results are functions of the channel
epg-key, the limit, the loaded EPG data and the ambient environment (the
wall-clock instant, the host timezone offset, the configured EPG offset
and the host date parser): environments agreeing on those four components
give equal results. -/
theorem epg_queries_env_extensional (e1 e2 : EpgEnv)
    (epg : List (String × List Programme)) (ch : String) (lim : Nat)
    (hnow : e1.nowMs = e2.nowMs) (hloc : e1.localOffsetMs = e2.localOffsetMs)
    (hoff : e1.epgOffsetMs = e2.epgOffsetMs) (hjs : ∀ s, e1.jsDate s = e2.jsDate s) :
    getCurrentProgram e1 epg ch = getCurrentProgram e2 epg ch ∧
    getUpcomingPrograms e1 epg ch lim = getUpcomingPrograms e2 epg ch lim := by
  have h : e1 = e2 := by
    cases e1
    cases e2
    simp only at hnow hloc hoff hjs
    subst hnow hloc hoff
    simp [funext hjs]
  subst h
  exact ⟨rfl, rfl⟩

/-- Witness for `epg_queries_env_extensional` at the concrete environment. -/
theorem epg_queries_env_extensional_witness :
    getCurrentProgram envEpgA epgSample "bbc1" = getCurrentProgram envEpgA epgSample "bbc1" ∧
    getUpcomingPrograms envEpgA epgSample "bbc1" 5 =
      getUpcomingPrograms envEpgA epgSample "bbc1" 5 :=
  epg_queries_env_extensional envEpgA envEpgA epgSample "bbc1" 5 rfl rfl rfl (fun _ => rfl)

/-! ## Claim C7 -/

def epgFeedC7 : List (String × List Programme) :=
  [("c", [⟨"20240101150000 +0000", "", "late", ""⟩, ⟨"20240101130000 +0000", "", "early", ""⟩])]

/-- Wall clock at 2024-01-01T11:00:00Z. -/
def envC7 : EpgEnv := ⟨1704106800000, 0, 0, fun _ => none⟩

/-- Claim C7, counterexample: with two upcoming programmes listed in the
feed as (15:00, 13:00) and limit 1, the code returns the 15:00 programme
(the first `limit` in feed order, then sorted), not the earliest upcoming
one (13:00) that the claim requires — the result depends on feed order. -/
theorem upcoming_feed_order_cex :
    (getUpcomingPrograms envC7 epgFeedC7 "c" 1).map (fun e => e.title) = ["late"] ∧
    (claimUpcomingPrograms envC7 epgFeedC7 "c" 1).map (fun e => e.title) = ["early"] ∧
    getUpcomingPrograms envC7 epgFeedC7 "c" 1 ≠ claimUpcomingPrograms envC7 epgFeedC7 "c" 1 := by
  decide

/-- Claim C7, amended: `getUpcomingPrograms` collects the first `limit`
programmes in feed order whose start is strictly after now, then sorts
that selection ascending by start; the result is sorted, but it is the
feed-order prefix of the upcoming programmes, not the globally earliest
`limit` of them, so it does depend on feed order. -/
theorem getUpcomingPrograms_take_then_sort (env : EpgEnv)
    (epg : List (String × List Programme)) (ch : String) (limit : Nat)
    (progs : List Programme) (hch : ch ≠ "") (h : alistGet epg ch = some progs) :
    getUpcomingPrograms env epg ch limit
      = ((progs.filterMap (upEntry? env)).take limit).insertionSort upLe ∧
    List.Sorted upLe (getUpcomingPrograms env epg ch limit) := by
  have heq : getUpcomingPrograms env epg ch limit
      = ((progs.filterMap (upEntry? env)).take limit).insertionSort upLe := by
    rw [getUpcomingPrograms, if_neg hch, h]
    dsimp only
    rw [upLoop_eq]
    simp
  exact ⟨heq, heq ▸ List.sorted_insertionSort upLe _⟩

/-- Witness for `getUpcomingPrograms_take_then_sort` at the concrete feed. -/
theorem getUpcomingPrograms_take_then_sort_witness :
    getUpcomingPrograms envC7 epgFeedC7 "c" 1
      = (((((epgFeedC7.head?.map (fun p => p.2)).getD []).filterMap
          (upEntry? envC7)).take 1).insertionSort upLe) :=
  (getUpcomingPrograms_take_then_sort envC7 epgFeedC7 "c" 1
    ((epgFeedC7.head?.map (fun p => p.2)).getD []) (by decide) (by decide)).1

/-! ## Claim C9 -/

/-- The quality table claim C9 describes, written from the spec's words:
scan the display name case-insensitively; `4K`/`UHD` give `4K`,
`FHD`/`FULL HD` (any, possibly empty, whitespace)/`1080` give `FHD`,
`HD`/`720` give `HD`, no token gives `SD`. -/
def claimQuality (name : String) : String :=
  let n := upperStr name
  if strContains n "4K" || strContains n "UHD" then "4K"
  else if strContains n "FHD" || containsFullHD n.data || strContains n "1080" then "FHD"
  else if strContains n "HD" || strContains n "720" then "HD"
  else "SD"

def m3u1080 : String := "#EXTINF:-1 tvg-id=\"c1\",Channel 1080\nhttp://u"

/-- Claim C9, counterexample: in the playlist parsing path a name
containing `1080` (and no word-bounded `4K`/`UHD`/`FHD`/`HD`/`SD` token)
is tiered `SD`, not `FHD` as the claim requires for both paths; `720` and
`FULL HD` likewise are not recognized there (`FULL HD` matches the bare
`HD` token instead). -/
theorem m3u_quality_tokens_cex :
    ((parseM3U m3u1080).map fun i => i.streams.map fun s => s.quality) = [["SD"]] ∧
    m3uQuality "Channel 1080" = "SD" ∧ detectQuality "Channel 1080" = "FHD" ∧
    m3uQuality "Channel 720" = "SD" ∧ detectQuality "Channel 720" = "HD" ∧
    m3uQuality "Channel FULL HD" = "HD" ∧ detectQuality "Channel FULL HD" = "FHD" := by
  decide

/-- Claim C9, amended: the provider-JSON path's `detectQuality` implements
exactly the claimed case-insensitive substring table; the playlist path
recognizes only the word-bounded tokens `4K`/`UHD`/`FHD`/`HD`/`SD`
(first match wins, `UHD` folds to `4K`, absence gives `SD`) — `1080`,
`720` and `FULL HD` are not tier tokens there. -/
theorem quality_detection_paths :
    (∀ name, detectQuality name = claimQuality name) ∧
    m3uQuality "Channel 4K" = "4K" ∧ m3uQuality "Channel UHD" = "4K" ∧
    m3uQuality "Channel FHD" = "FHD" ∧ m3uQuality "Channel HD" = "HD" ∧
    m3uQuality "Channel SD" = "SD" ∧ m3uQuality "Channel" = "SD" ∧
    m3uQuality "Channel 1080" = "SD" ∧ m3uQuality "Channel 720" = "SD" ∧
    m3uQuality "Channel FULL HD" = "HD" := by
  exact ⟨fun name => rfl, by decide⟩

/-! ## Claim C10 -/

def rbbc : TvRec := ⟨"bbc1", "BBC One HD", "http://u1", none, "", []⟩

def chBbc : Item := (alistGet (List.foldl mergeTvStep [] [rbbc]) "bbc1").getD emptyItem

def movieContent : String :=
  "#EXTINF:-1 group-title=\"Movies\",The Matrix (1999)\nhttp://x/movie1.mp4"

/-- Claim C10: every movie/series item of the playlist parser gets the id
`iptv_` + first 16 hex digits of md5(name + url) — concretely evaluated on
a sample playlist — so renaming the entry or changing its URL changes the
id; merged TV channels instead derive their id from the canonical merge
key alone. -/
theorem item_id_hashing :
    (∀ (rs : List TvRec) (k : String) (ch : Item),
      alistGet (rs.foldl mergeTvStep []) k = some ch →
      ch.id = "iptv_" ++ strTake (md5hex k) 16) ∧
    ((parseM3U movieContent).map fun i => i.id) = ["iptv_68b630ed310b2933"] ∧
    mkItemId "The Matrix (1999)" "http://x/movie1.mp4" = "iptv_68b630ed310b2933" ∧
    mkItemId "The Matrix (1999)" "http://x/movie1.mp4" ≠
      mkItemId "Matrix Reloaded (2003)" "http://x/movie1.mp4" ∧
    mkItemId "The Matrix (1999)" "http://x/movie1.mp4" ≠
      mkItemId "The Matrix (1999)" "http://x/movie2.mp4" := by
  refine ⟨?_, by decide⟩
  intro rs k ch h
  rw [mergeTvFold_lookup] at h
  rcases hsel : rs.filter (fun r => r.key = k) with _ | ⟨r0, tl⟩
  · rw [hsel] at h
    simp [mergedTvChannel] at h
  · rw [hsel] at h
    simp only [mergedTvChannel, Option.some_inj] at h
    have hr0 : r0 ∈ rs.filter (fun r => r.key = k) := by
      rw [hsel]
      exact List.mem_cons_self r0 tl
    have hk : r0.key = k := by
      have := (List.mem_filter.mp hr0).2
      exact of_decide_eq_true this
    rw [← h]
    simp [mkTvChannel, hk]

/-- Witness for `item_id_hashing` at a concrete one-record merge. -/
theorem item_id_hashing_witness : chBbc.id = "iptv_" ++ strTake (md5hex "bbc1") 16 :=
  item_id_hashing.1 [rbbc] "bbc1" chBbc (by decide)

/-! ## Claim C8 -/

def livesC8 : List XLive :=
  [⟨"Chan SD", "bbc1", "1", "", 1, ""⟩, ⟨"Chan 4K", "bbc1", "1", "", 2, ""⟩]

/-- The grouping state of the provider-JSON merge after both records of
`livesC8` have been processed (before finalization). -/
def groupStateC8 : List (String × Item) :=
  livesC8.foldl (xtreamGroupStep [] "http://h" "u" "p") []

/-- Claim C8, counterexample: in the provider-JSON path the invariant is
not re-established each time the variant list changes. After the grouping
step that pushes the second variant onto the `bbc1` channel, the merger's
state holds that channel with its streams in feed order — `SD` before
`4K`, not sorted best tier first — and with no default url at all; the
sort and the default url happen only once, at finalization
(`Array.from(groupMap.values()).map(...)`). -/
theorem variants_per_step_cex :
    ((alistGet groupStateC8 "bbc1").getD emptyItem).streams.map (fun s => s.quality)
      = ["SD", "4K"] ∧
    ¬ List.Sorted xStreamLe ((alistGet groupStateC8 "bbc1").getD emptyItem).streams ∧
    ((alistGet groupStateC8 "bbc1").getD emptyItem).url = none ∧
    ((alistGet groupStateC8 "bbc1").getD emptyItem).streams ≠ [] := by
  decide

/-- Claim C8, amended: in the playlist path the invariant — nonempty
streams, sorted best tier first with equal tiers keeping insertion order
(filtering by any one quality preserves the contribution order), default
url equal to the first stream's — is re-established after every merge
step (the statement quantifies over every record prefix). In the
provider-JSON path, streams are accumulated in feed order with no sorting
and no default url while grouping, and the invariant — including
equal-tier insertion-order preservation — is established once, when the
channels are finalized; every channel that path emits satisfies it. -/
theorem variants_sorted_invariant :
    (∀ (rs : List TvRec) (k : String) (ch : Item),
      alistGet (rs.foldl mergeTvStep []) k = some ch →
      ch.streams ≠ [] ∧ List.Sorted pStreamLe ch.streams ∧
      ch.url = ch.streams.head?.map (fun s => s.url) ∧
      ∀ q, ch.streams.filter (fun s => s.quality = q)
        = ((rs.filter (fun r => r.key = k)).map mkTvStream).filter (fun s => s.quality = q)) ∧
    (∀ (catMap : List (String × String)) (u usr pwd : String) (ls : List XLive) (ch : Item),
      ch ∈ mergeXtreamLive catMap u usr pwd ls →
      ch.streams ≠ [] ∧ List.Sorted xStreamLe ch.streams ∧
      ch.url = ch.streams.head?.map (fun s => s.url) ∧
      ∃ k, ls.filter (fun s => xKey s = k) ≠ [] ∧
        ∀ q, ch.streams.filter (fun s => s.quality = q)
          = ((ls.filter (fun s => xKey s = k)).map (mkXStream u usr pwd)).filter
              (fun s => s.quality = q)) ∧
    (∀ (catMap : List (String × String)) (u usr pwd : String) (ls : List XLive) (k : String)
      (ch : Item),
      alistGet (ls.foldl (xtreamGroupStep catMap u usr pwd) []) k = some ch →
      ch.streams = (ls.filter (fun s => xKey s = k)).map (mkXStream u usr pwd) ∧
      ch.url = none) := by
  refine ⟨?_, ?_, ?_⟩
  · intro rs k ch h
    rw [mergeTvFold_lookup] at h
    rcases hsel : rs.filter (fun r => r.key = k) with _ | ⟨r0, tl⟩
    · rw [hsel] at h
      simp [mergedTvChannel] at h
    · rw [hsel] at h
      simp only [mergedTvChannel, Option.some_inj] at h
      have hlen : (((r0 :: tl).map mkTvStream).insertionSort pStreamLe).length
          = ((r0 :: tl).map mkTvStream).length :=
        (List.perm_insertionSort pStreamLe _).length_eq
      refine ⟨?_, ?_, ?_, ?_⟩
      · rw [← h]
        dsimp only
        intro hnil
        simp only [hnil, List.length_nil, List.length_map, List.length_cons] at hlen
        omega
      · rw [← h]
        exact List.sorted_insertionSort pStreamLe _
      · rw [← h]
      · intro q
        rw [← h, hsel]
        dsimp only
        exact insertionSort_filter_stable pStreamLe _ _ fun a b ha hb => by
          have ha' : a.quality = q := of_decide_eq_true ha
          have hb' : b.quality = q := of_decide_eq_true hb
          simp [pStreamLe, ha', hb']
  · intro catMap u usr pwd ls ch h
    rcases mergeXtreamLive_mem catMap u usr pwd ls ch h with ⟨k, s0, tl, hsel, rfl⟩
    refine ⟨?_, ?_, rfl, ⟨k, ?_, ?_⟩⟩
    · intro hnil
      have hlen0 := congrArg List.length hnil
      simp only [finalizeXChannel, List.length_nil] at hlen0
      rw [(List.perm_insertionSort xStreamLe _).length_eq] at hlen0
      simp at hlen0
    · exact List.sorted_insertionSort xStreamLe _
    · rw [hsel]
      simp
    · intro q
      rw [hsel]
      have hstreams : (finalizeXChannel
          { mkXChannel catMap s0 with streams := (s0 :: tl).map (mkXStream u usr pwd) }).streams
          = ((s0 :: tl).map (mkXStream u usr pwd)).insertionSort xStreamLe := rfl
      rw [hstreams]
      exact insertionSort_filter_stable xStreamLe _ _ fun a b ha hb => by
        have ha' : a.quality = q := of_decide_eq_true ha
        have hb' : b.quality = q := of_decide_eq_true hb
        simp [xStreamLe, ha', hb']
  · intro catMap u usr pwd ls k ch h
    rw [xtreamGroupFold_lookup] at h
    rcases hsel : ls.filter (fun s => xKey s = k) with _ | ⟨s0, tl⟩
    · rw [hsel] at h
      simp [groupedXChannel] at h
    · rw [hsel] at h
      simp only [groupedXChannel, Option.some_inj] at h
      constructor
      · rw [← h]
      · rw [← h]
        simp [mkXChannel, emptyItem]

/-- Witness for `variants_sorted_invariant` at a concrete one-record merge. -/
theorem variants_sorted_invariant_witness :
    chBbc.streams ≠ [] ∧ List.Sorted pStreamLe chBbc.streams ∧
    chBbc.url = chBbc.streams.head?.map (fun s => s.url) ∧
    ∀ q, chBbc.streams.filter (fun s => s.quality = q)
      = (([rbbc].filter (fun r => r.key = "bbc1")).map mkTvStream).filter
          (fun s => s.quality = q) :=
  variants_sorted_invariant.1 [rbbc] "bbc1" chBbc (by decide)

/-! ## Claim C1 -/

def m3uNoId : String := "#EXTINF:-1,BBC One HD\nhttp://u1\n#EXTINF:-1,BBC One FHD\nhttp://u2"

def livesCase : List XLive := [⟨"BBC ONE", "", "1", "", 1, ""⟩, ⟨"bbc one", "", "1", "", 2, ""⟩]

/-- Claim C1, counterexample. Playlist path: two TV records with no
explicit identifier and the same case-normalized cleaned name ("BBC One")
are not merged into one Channel at all — `parseM3U` emits two separate
unmerged items (no stream lists, distinct ids). Provider-JSON path: two
records with no `epg_channel_id` whose cleaned names agree up to case
("BBC ONE" / "bbc one") yield two Channels, because that path keys by the
cleaned name without case normalization. -/
theorem m3u_noid_merge_cex :
    m3uBaseName "BBC One HD" = "BBC One" ∧ m3uBaseName "BBC One FHD" = "BBC One" ∧
    (parseM3U m3uNoId).length = 2 ∧
    ((parseM3U m3uNoId).map fun i => i.itemType) = ["tv", "tv"] ∧
    ((parseM3U m3uNoId).map fun i => i.streams) = [[], []] ∧
    ((parseM3U m3uNoId).map fun i => i.epg_channel_id) = [some "", some ""] ∧
    (parseM3U m3uNoId).head?.map (fun i => i.id) ≠
      ((parseM3U m3uNoId).drop 1).head?.map (fun i => i.id) ∧
    normalizeJs (cleanName "BBC ONE") = normalizeJs (cleanName "bbc one") ∧
    (mergeXtreamLive [] "h" "u" "p" livesCase).length = 2 := by
  decide

/-- Claim C1, amended. Playlist path: a TV record whose normalized
tvg-id/tvg-name is empty bypasses the channel merge entirely (the merge
map is untouched and the record is emitted as its own item), and the
merge map groups precisely by the normalized identifier: the channel
stored under key `k` holds exactly the streams of the records whose key is
`k` (so records with different identifiers never share a Channel, and a
missing key holds no channel). Provider-JSON path: grouping is by
`epg_channel_id`, falling back to the cleaned name compared case
sensitively; the channel under key `k` holds exactly the streams of the
records with that key. -/
theorem channel_merge_keying :
    (∀ (st : ParseState) (e : ExtInf) (url : String),
      recordType e = "tv" → normalizeJs (recordTvgIdRaw e) = "" →
      (processEntry st e url).groups = st.groups ∧
      (processEntry st e url).items.length = st.items.length + 1) ∧
    (∀ (rs : List TvRec) (k : String) (ch : Item),
      alistGet (rs.foldl mergeTvStep []) k = some ch →
      ch.streams = ((rs.filter (fun r => r.key = k)).map mkTvStream).insertionSort pStreamLe) ∧
    (∀ (rs : List TvRec) (k : String), rs.filter (fun r => r.key = k) = [] →
      alistGet (rs.foldl mergeTvStep []) k = none) ∧
    (∀ (catMap : List (String × String)) (u usr pwd : String) (ls : List XLive) (k : String)
      (ch : Item),
      alistGet (ls.foldl (xtreamGroupStep catMap u usr pwd) []) k = some ch →
      ch.streams = (ls.filter (fun s => xKey s = k)).map (mkXStream u usr pwd)) := by
  refine ⟨fun st e url hty hid => ?_, fun rs k ch h => ?_, fun rs k h => ?_,
    fun catMap u usr pwd ls k ch h => ?_⟩
  · rw [processEntry]
    simp only [hid]
    simp
  · rw [mergeTvFold_lookup] at h
    rcases hsel : rs.filter (fun r => r.key = k) with _ | ⟨r0, tl⟩
    · rw [hsel] at h
      simp [mergedTvChannel] at h
    · rw [hsel] at h
      simp only [mergedTvChannel, Option.some_inj] at h
      rw [← h, hsel]
  · rw [mergeTvFold_lookup, h]
    rfl
  · rw [xtreamGroupFold_lookup] at h
    rcases hsel : ls.filter (fun s => xKey s = k) with _ | ⟨s0, tl⟩
    · rw [hsel] at h
      simp [groupedXChannel] at h
    · rw [hsel] at h
      simp only [groupedXChannel, Option.some_inj] at h
      rw [← h]

/-- Witness for `channel_merge_keying` at a concrete one-record merge. -/
theorem channel_merge_keying_witness :
    chBbc.streams = (([rbbc].filter (fun r => r.key = "bbc1")).map mkTvStream).insertionSort
      pStreamLe :=
  channel_merge_keying.2.1 [rbbc] "bbc1" chBbc (by decide)
